import Mathlib

/-!
Verification of the Stack Exchange collection pipeline
(src/src/data/collector.py) against its specification.

The collector is embedded shallowly: the pseudo-random source, the current
time, and the two remote fetch endpoints are explicit parameters; every
method of `StackExchangeCollector` becomes a pure function over them.
-/

namespace SE

/-- Owner record of an answer: user identifier and display name. -/
structure Owner where
  user_id : Nat
  display_name : String
deriving DecidableEq, Inhabited

/-- An answer record, as produced by the answer fetcher or the mock generator. -/
structure Answer where
  answer_id : Nat
  body : String
  score : Nat
  is_accepted : Bool
  creation_date : Int
  owner : Owner
deriving DecidableEq, Inhabited

/-- A question record as returned by `collect_questions` (before the answers merge). -/
structure Question where
  question_id : Nat
  title : String
  body : String
  score : Nat
  answer_count : Nat
  creation_date : Int
  tags : List String
  accepted_answer_id : Option Nat
deriving DecidableEq, Inhabited

/-- A question together with its merged `answers` field, as produced by
`collect_questions_with_answers`. -/
structure QA where
  q : Question
  answers : List Answer
deriving DecidableEq, Inhabited

/-- A pseudo-random source: an infinite stream of draws and a cursor.
Models Python's global `random` state. -/
structure Rng where
  stream : Nat → Nat
  pos : Nat

/-- Take one draw from the source. -/
def Rng.next (g : Rng) : Nat × Rng := (g.stream g.pos, ⟨g.stream, g.pos + 1⟩)

/-- Model of `random.randint lo hi`: one draw mapped into the inclusive range
`[lo, hi]`. -/
def randint (lo hi : Nat) (g : Rng) : Nat × Rng :=
  let (v, g2) := g.next
  (lo + v % (hi - lo + 1), g2)

/-- Model of `random.choice xs`: the element at a drawn index. -/
def rchoice (xs : List String) (g : Rng) : String × Rng :=
  let (i, g2) := randint 0 (xs.length - 1) g
  (xs.getD i "", g2)

/-- Model of `random.sample xs k`: k elements drawn without replacement. -/
def rsample (xs : List String) : Nat → Rng → List String × Rng
  | 0, g => ([], g)
  | k + 1, g =>
    if xs.isEmpty then ([], g)
    else
      let (i, g2) := randint 0 (xs.length - 1) g
      let (rest, g3) := rsample (xs.eraseIdx i) k g2
      (xs.getD i "" :: rest, g3)

/-- The ten candidate NLP topic tags of the mock generator (collector.py line 58). -/
def nlp_topics : List String :=
  ["tokenization", "word embeddings", "named entity recognition",
   "sentiment analysis", "text classification", "machine translation",
   "question answering", "summarization", "speech recognition", "BERT"]

/-- The library names the mock question body chooses from (line 69). -/
def mock_libraries_q : List String :=
  ["NLTK", "spaCy", "HuggingFace", "TensorFlow", "PyTorch"]

/-- The library names the mock answer body chooses from (line 84). -/
def mock_libraries_a : List String :=
  ["NLTK", "spaCy", "Transformers", "TensorFlow", "PyTorch", "Gensim"]

/-- One mock question, for loop index `i` (1-based), from `_generate_mock_questions`
(lines 62-76): `question_id = i`, `accepted_answer_id = i * 100`, tags are `"nlp"`
plus 1-3 sampled topics, with each random draw in source order. -/
def mkMockQuestion (i : Nat) (now : Int) (g : Rng) : Question × Rng :=
  let (ktags, g) := randint 1 3 g
  let (sampled, g) := rsample nlp_topics ktags g
  let (topicT, g) := rchoice nlp_topics g
  let (libB, g) := rchoice mock_libraries_q g
  let (topicB, g) := rchoice nlp_topics g
  let (score, g) := randint 0 50 g
  let (acount, g) := randint 1 5 g
  let (dOff, g) := randint 0 (30*24*60*60) g
  ({ question_id := i,
     title := "如何在 NLP 项目中实现 " ++ topicT ++ "?",
     body := "我正在尝试使用 Python 和 " ++ libB ++ " 实现 " ++ topicB ++ " 功能，但遇到了一些问题...",
     score := score,
     answer_count := acount,
     creation_date := now - (dOff : Int),
     tags := "nlp" :: sampled,
     accepted_answer_id := some (i * 100) }, g)

/-- The `for i in range(1, count + 1)` loop body of `_generate_mock_questions`. -/
def generate_mock_questions_go (now : Int) : List Nat → Rng → List Question × Rng
  | [], g => ([], g)
  | i :: rest, g =>
    let (q, g) := mkMockQuestion i now g
    let (qs, g2) := generate_mock_questions_go now rest g
    (q :: qs, g2)

/-- Model of `StackExchangeCollector._generate_mock_questions` (lines 55-78). -/
def generate_mock_questions (count : Nat) (now : Int) (g : Rng) : List Question × Rng :=
  generate_mock_questions_go now (List.range' 1 count) g

/-- One mock answer, for loop index `i` (1-based), from `_generate_mock_answers`
(lines 86-101): `answer_id = question_id * 100 + i`, accepted exactly when `i = 1`. -/
def mkMockAnswer (question_id i : Nat) (now : Int) (g : Rng) : Answer × Rng :=
  let (lib1, g) := rchoice mock_libraries_a g
  let (lib2, g) := rchoice mock_libraries_a g
  let (score, g) := randint 0 30 g
  let (dOff, g) := randint 0 (15*24*60*60) g
  let (uid, g) := randint 1000 9999 g
  let (nameN, g) := randint 1 100 g
  ({ answer_id := question_id * 100 + i,
     body := "你可以使用 " ++ lib1 ++ " 库来解决这个问题。以下是示例代码:\n```python\nimport " ++ lib2.toLower ++ "\n\n# 你的代码逻辑\n```\n希望这个回答对你有帮助！",
     score := score,
     is_accepted := i == 1,
     creation_date := now - (dOff : Int),
     owner := { user_id := uid, display_name := "NLP专家" ++ toString nameN } }, g)

/-- The `for i in range(1, answer_count + 1)` loop body of `_generate_mock_answers`. -/
def generate_mock_answers_go (question_id : Nat) (now : Int) : List Nat → Rng → List Answer × Rng
  | [], g => ([], g)
  | i :: rest, g =>
    let (a, g) := mkMockAnswer question_id i now g
    let (tl, g2) := generate_mock_answers_go question_id now rest g
    (a :: tl, g2)

/-- Model of `StackExchangeCollector._generate_mock_answers` (lines 80-103):
`answer_count = randint(1, 5)` answers, indices 1 to `answer_count`. -/
def generate_mock_answers (question_id : Nat) (now : Int) (g : Rng) : List Answer × Rng :=
  let (answer_count, g) := randint 1 5 g
  generate_mock_answers_go question_id now (List.range' 1 answer_count) g

/-- Outcome of one remote question-listing fetch: the `items` of the response,
or a `StackAPIError` raised by the transport (the stackapi client wraps every
transport and remote failure in `StackAPIError` and always supplies `items` on
success). -/
inductive QFetch where
  | ok (items : List Question)
  | apiError
deriving DecidableEq

/-- Outcome of one remote answer-listing fetch: the `items`, a `StackAPIError`,
or any other exception (the second `except` clause at line 202). -/
inductive AFetch where
  | ok (items : List Answer)
  | apiError
  | otherError
deriving DecidableEq

/-- The answers an outcome yields under the degrade-to-empty policy of
`collect_answers_for_question` (both `except` clauses return `[]`). -/
def AFetch.items : AFetch → List Answer
  | .ok ans => ans
  | .apiError => []
  | .otherError => []

/-- Collector state: the mock-mode flag and page size fixed at construction, and
the two external fetch capabilities. `qfetch` is indexed by the `max_pages`
value assigned just before the request (line 150). -/
structure Collector where
  use_mock_data : Bool
  page_size : Nat
  qfetch : Nat → QFetch
  afetch : Nat → AFetch

/-- The `max_pages` assignment of line 150:
`(max_count + page_size - 1) // page_size`. -/
def pagesFor (page_size max_count : Nat) : Nat := (max_count + page_size - 1) / page_size

/-- The live branch of `collect_questions` (lines 134-167): set `max_pages`,
fetch, truncate beyond `max_count`, degrade a `StackAPIError` to `[]`. -/
def collect_questions_live (c : Collector) (max_count : Nat) : List Question :=
  match c.qfetch (pagesFor c.page_size max_count) with
  | .ok qs => if qs.length > max_count then qs.take max_count else qs
  | .apiError => []

/-- Model of `StackExchangeCollector.collect_questions` (lines 105-167). -/
def collect_questions (c : Collector) (max_count : Nat) (now : Int) (g : Rng) :
    List Question × Rng :=
  if c.use_mock_data then generate_mock_questions max_count now g
  else (collect_questions_live c max_count, g)

/-- Model of `StackExchangeCollector.collect_answers_for_question` (lines 169-204):
mock branch, or live fetch with both exception handlers returning `[]`. -/
def collect_answers_for_question (c : Collector) (question_id : Nat) (now : Int) (g : Rng) :
    List Answer × Rng :=
  if c.use_mock_data then generate_mock_answers question_id now g
  else
    match c.afetch question_id with
    | .ok ans => (ans, g)
    | .apiError => ([], g)
    | .otherError => ([], g)

/-- One checkpoint write performed by `collect_questions_with_answers`: the
running count `i + 1`, the temp path embedding it, and the accumulated data
passed to `save_to_json` (lines 254-257). -/
structure Checkpoint where
  count : Nat
  path : String
  data : List QA
deriving DecidableEq, Inhabited

/-- The temp checkpoint path for running count `n` (line 256):
`data/raw/nlp_questions_temp_{n}.json`. -/
def checkpointPath (n : Nat) : String :=
  "data/raw/nlp_questions_temp_" ++ toString n ++ ".json"

/-- The `for i, question in enumerate(questions)` loop of
`collect_questions_with_answers` (lines 242-257): fetch answers, merge, append,
and checkpoint when `(i + 1) % 10 == 0 or i == total_questions - 1`. -/
def cwaLoop (c : Collector) (now : Int) (total : Nat) :
    List Question → Nat → List QA → List Checkpoint → Rng →
    List QA × List Checkpoint × Rng
  | [], _, acc, cps, g => (acc, cps, g)
  | q :: rest, i, acc, cps, g =>
    let r := collect_answers_for_question c q.question_id now g
    let acc' := acc ++ [⟨q, r.1⟩]
    let cps' := if (i + 1) % 10 == 0 || i == total - 1
      then cps ++ [⟨i + 1, checkpointPath (i + 1), acc'⟩]
      else cps
    cwaLoop c now total rest (i + 1) acc' cps' r.2

/-- Model of `StackExchangeCollector.collect_questions_with_answers`
(lines 206-259): fetch the questions; if none, warn and return `[]`; otherwise
merge each question's answers in fetch order, checkpointing along the way.
Returns the result, the list of checkpoint writes, and the final random state. -/
def collect_questions_with_answers (c : Collector) (max_count : Nat) (now : Int) (g : Rng) :
    List QA × List Checkpoint × Rng :=
  let r := collect_questions c max_count now g
  if r.1.isEmpty then ([], [], r.2)
  else cwaLoop c now r.1.length r.1 0 [] [] r.2

/-- The merged question-with-answers sequence the enumerate loop produces, in
fetch order: each question paired with the answers its own fetch call returned. -/
def cwaAnswers (c : Collector) (now : Int) : List Question → Rng → List QA
  | [], _ => []
  | q :: rest, g =>
    ⟨q, (collect_answers_for_question c q.question_id now g).1⟩
      :: cwaAnswers c now rest (collect_answers_for_question c q.question_id now g).2

/-! ### JSON documents

`save_to_json` calls `json.dump(data, f, ensure_ascii=False, indent=2)`.
The document grammar is embedded as `JValue`; `dumps` reproduces the
serializer for the value shapes the collector writes (null, booleans,
integers, strings, arrays, objects) with two-space indentation and
`ensure_ascii=False` escaping; `parseJson` models reading the file back
with `json.load`. -/

/-- A JSON value: the document grammar the collector serializes. -/
inductive JValue where
  | jnull
  | jbool (b : Bool)
  | jint (n : Int)
  | jstr (s : List Char)
  | jarr (xs : List JValue)
  | jobj (fields : List (List Char × JValue))

/-- The lowercase hex digit for `n < 16`, as `"%x"` formats it. -/
def hexDigit (n : Nat) : Char := if n < 10 then Char.ofNat (48 + n) else Char.ofNat (87 + n)

/-- One character as the `ensure_ascii=False` serializer emits it: `"` and `\`
and the short control escapes use two-character escapes, the remaining control
characters use `\u00XX`, and every other character (non-ASCII included) is
emitted literally. -/
def escapeChar (c : Char) : List Char :=
  if c = '"' then ['\\', '"']
  else if c = '\\' then ['\\', '\\']
  else if c = '\n' then ['\\', 'n']
  else if c = '\r' then ['\\', 'r']
  else if c = '\t' then ['\\', 't']
  else if c = '\x08' then ['\\', 'b']
  else if c = '\x0c' then ['\\', 'f']
  else if c.toNat < 32 then
    ['\\', 'u', '0', '0', hexDigit (c.toNat / 16), hexDigit (c.toNat % 16)]
  else [c]

/-- A string body, escaped. -/
def escapeStr (s : List Char) : List Char := s.flatMap escapeChar

/-- The decimal digit character for `d < 10`. -/
def digitChar (d : Nat) : Char := Char.ofNat (48 + d)

/-- Decimal digit characters of `n`, most significant first, as `str(n)`. -/
def natChars (n : Nat) : List Char :=
  if n = 0 then ['0'] else ((Nat.digits 10 n).map digitChar).reverse

/-- `str(n)` for an integer: optional minus sign, then decimal digits. -/
def intChars (n : Int) : List Char :=
  if n < 0 then '-' :: natChars n.natAbs else natChars n.natAbs

/-- `indent`-many spaces. -/
def ind (n : Nat) : List Char := List.replicate n ' '

mutual

/-- `json.dumps` at `ensure_ascii=False, indent=2`, with `lvl` the current
indentation width: containers open with a newline, indent items by two more
spaces, separate them with `",\n" + indent`, and close on a fresh line at the
enclosing indentation; empty containers print as two characters. -/
def dumps : JValue → Nat → List Char
  | .jnull, _ => ['n', 'u', 'l', 'l']
  | .jbool true, _ => ['t', 'r', 'u', 'e']
  | .jbool false, _ => ['f', 'a', 'l', 's', 'e']
  | .jint n, _ => intChars n
  | .jstr s, _ => '"' :: (escapeStr s ++ ['"'])
  | .jarr [], _ => ['[', ']']
  | .jarr (x :: xs), lvl =>
      '[' :: '\n' :: (ind (lvl + 2) ++ (dumps x (lvl + 2)
        ++ (dumpsArrTail xs (lvl + 2) ++ ('\n' :: (ind lvl ++ [']'])))))
  | .jobj [], _ => ['\x7b', '\x7d']
  | .jobj (kv :: kvs), lvl =>
      '\x7b' :: '\n' :: (ind (lvl + 2) ++ (dumpsMember kv (lvl + 2)
        ++ (dumpsObjTail kvs (lvl + 2) ++ ('\n' :: (ind lvl ++ ['\x7d'])))))

/-- One object member: quoted escaped key, then `": "`, then the value. -/
def dumpsMember : List Char × JValue → Nat → List Char
  | (k, v), lvl => '"' :: (escapeStr k ++ ('"' :: ':' :: ' ' :: dumps v lvl))

/-- The remaining array items, each preceded by `",\n" + indent`. -/
def dumpsArrTail : List JValue → Nat → List Char
  | [], _ => []
  | x :: xs, lvl => ',' :: '\n' :: (ind lvl ++ (dumps x lvl ++ dumpsArrTail xs lvl))

/-- The remaining object members, each preceded by `",\n" + indent`. -/
def dumpsObjTail : List (List Char × JValue) → Nat → List Char
  | [], _ => []
  | kv :: kvs, lvl => ',' :: '\n' :: (ind lvl ++ (dumpsMember kv lvl ++ dumpsObjTail kvs lvl))

end

/-- JSON whitespace (space, newline, tab, carriage return). -/
def isWsChar (c : Char) : Bool :=
  c.toNat = 32 || c.toNat = 10 || c.toNat = 9 || c.toNat = 13

/-- Skip leading whitespace. -/
def skipWs : List Char → List Char
  | [] => []
  | c :: cs => if isWsChar c then skipWs cs else c :: cs

/-- An ASCII decimal digit. -/
def isDigitChar (c : Char) : Bool := decide (48 ≤ c.toNat) && decide (c.toNat ≤ 57)

/-- The longest leading digit run and the remainder. -/
def takeDigits : List Char → List Char × List Char
  | [] => ([], [])
  | c :: cs =>
      if isDigitChar c then (c :: (takeDigits cs).1, (takeDigits cs).2)
      else ([], c :: cs)

/-- The natural number a digit run denotes. -/
def digitsToNat (ds : List Char) : Nat := ds.foldl (fun a c => a * 10 + (c.toNat - 48)) 0

/-- Parse an optionally signed decimal integer. -/
def parseInt : List Char → Option (Int × List Char)
  | '-' :: r =>
      if (takeDigits r).1.isEmpty then none
      else some (-(digitsToNat (takeDigits r).1 : Int), (takeDigits r).2)
  | cs =>
      if (takeDigits cs).1.isEmpty then none
      else some ((digitsToNat (takeDigits cs).1 : Int), (takeDigits cs).2)

/-- The value of one hex digit character, if any. -/
def hexVal (c : Char) : Option Nat :=
  if 48 ≤ c.toNat && c.toNat ≤ 57 then some (c.toNat - 48)
  else if 97 ≤ c.toNat && c.toNat ≤ 102 then some (c.toNat - 87)
  else if 65 ≤ c.toNat && c.toNat ≤ 70 then some (c.toNat - 55)
  else none

/-- The character a two-character escape denotes, if any. -/
def unescapeChar (c : Char) : Option Char :=
  if c = '"' then some '"'
  else if c = '\\' then some '\\'
  else if c = '/' then some '/'
  else if c = 'n' then some '\n'
  else if c = 'r' then some '\r'
  else if c = 't' then some '\t'
  else if c = 'b' then some '\x08'
  else if c = 'f' then some '\x0c'
  else none

/-- Parse a string body after the opening quote, un-escaping, up to the closing
quote; `fuel` bounds the recursion (one unit per produced character). -/
def parseStrBody : Nat → List Char → Option (List Char × List Char)
  | 0, _ => none
  | _ + 1, [] => none
  | fuel + 1, c :: cs =>
    if c = '"' then some ([], cs)
    else if c = '\\' then
      match cs with
      | 'u' :: a :: b :: c2 :: d :: r =>
          match hexVal a, hexVal b, hexVal c2, hexVal d with
          | some va, some vb, some vc, some vd =>
              match parseStrBody fuel r with
              | some (s, rest) =>
                  some (Char.ofNat (((va * 16 + vb) * 16 + vc) * 16 + vd) :: s, rest)
              | none => none
          | _, _, _, _ => none
      | e :: r =>
          match unescapeChar e with
          | some ch =>
              match parseStrBody fuel r with
              | some (s, rest) => some (ch :: s, rest)
              | none => none
          | none => none
      | [] => none
    else
      match parseStrBody fuel cs with
      | some (s, rest) => some (c :: s, rest)
      | none => none

mutual

/-- Parse one JSON value (after optional whitespace); `fuel` bounds the mutual
recursion depth. -/
def parseVal : Nat → List Char → Option (JValue × List Char)
  | 0, _ => none
  | fuel + 1, cs =>
    match skipWs cs with
    | 'n' :: 'u' :: 'l' :: 'l' :: r => some (.jnull, r)
    | 't' :: 'r' :: 'u' :: 'e' :: r => some (.jbool true, r)
    | 'f' :: 'a' :: 'l' :: 's' :: 'e' :: r => some (.jbool false, r)
    | '"' :: r =>
        match parseStrBody (r.length + 1) r with
        | some (s, rest) => some (.jstr s, rest)
        | none => none
    | '[' :: r =>
        match skipWs r with
        | [] => none
        | c :: r2 =>
            if c = ']' then some (.jarr [], r2)
            else
              match parseItems fuel (c :: r2) with
              | some (vs, rest) => some (.jarr vs, rest)
              | none => none
    | '\x7b' :: r =>
        match skipWs r with
        | [] => none
        | c :: r2 =>
            if c = '\x7d' then some (.jobj [], r2)
            else
              match parsePairs fuel (c :: r2) with
              | some (ms, rest) => some (.jobj ms, rest)
              | none => none
    | c :: r =>
        if c = '-' || isDigitChar c then
          match parseInt (c :: r) with
          | some (n, rest) => some (.jint n, rest)
          | none => none
        else none
    | [] => none

/-- Parse one-or-more comma-separated array items up to `]`. -/
def parseItems : Nat → List Char → Option (List JValue × List Char)
  | 0, _ => none
  | fuel + 1, cs =>
    match parseVal fuel cs with
    | none => none
    | some (v, r) =>
        match skipWs r with
        | ',' :: r2 =>
            match parseItems fuel r2 with
            | some (vs, rest) => some (v :: vs, rest)
            | none => none
        | ']' :: r2 => some ([v], r2)
        | _ => none

/-- Parse one-or-more comma-separated object members up to the closing brace. -/
def parsePairs : Nat → List Char → Option (List (List Char × JValue) × List Char)
  | 0, _ => none
  | fuel + 1, cs =>
    match skipWs cs with
    | '"' :: r =>
        match parseStrBody (r.length + 1) r with
        | none => none
        | some (k, r1) =>
            match skipWs r1 with
            | ':' :: r2 =>
                match parseVal fuel r2 with
                | none => none
                | some (v, r3) =>
                    match skipWs r3 with
                    | ',' :: r4 =>
                        match parsePairs fuel r4 with
                        | some (ms, rest) => some ((k, v) :: ms, rest)
                        | none => none
                    | '\x7d' :: r4 => some ([(k, v)], r4)
                    | _ => none
            | _ => none
    | _ => none

end

/-- Model of `json.load` on the file contents: parse one document and require
only whitespace after it. -/
def parseJson (cs : List Char) : Option JValue :=
  match parseVal (cs.length + 1) cs with
  | some (v, rest) => if (skipWs rest).isEmpty then some v else none
  | none => none

/-- The JSON document of an answer's owner record. -/
def ownerToJson (o : Owner) : JValue :=
  .jobj [("user_id".data, .jint o.user_id),
         ("display_name".data, .jstr o.display_name.data)]

/-- The JSON document of an answer record. -/
def answerToJson (a : Answer) : JValue :=
  .jobj [("answer_id".data, .jint a.answer_id),
         ("body".data, .jstr a.body.data),
         ("score".data, .jint a.score),
         ("is_accepted".data, .jbool a.is_accepted),
         ("creation_date".data, .jint a.creation_date),
         ("owner".data, ownerToJson a.owner)]

/-- A nullable integer field. -/
def optNatToJson : Option Nat → JValue
  | none => .jnull
  | some n => .jint n

/-- The JSON document of one merged question record. -/
def qaToJson (qa : QA) : JValue :=
  .jobj [("question_id".data, .jint qa.q.question_id),
         ("title".data, .jstr qa.q.title.data),
         ("body".data, .jstr qa.q.body.data),
         ("score".data, .jint qa.q.score),
         ("answer_count".data, .jint qa.q.answer_count),
         ("creation_date".data, .jint qa.q.creation_date),
         ("tags".data, .jarr (qa.q.tags.map (fun t => .jstr t.data))),
         ("accepted_answer_id".data, optNatToJson qa.q.accepted_answer_id),
         ("answers".data, .jarr (qa.answers.map answerToJson))]

/-- The JSON array `save_to_json` serializes for a record sequence. -/
def recordsToJson (rs : List QA) : JValue := .jarr (rs.map qaToJson)

/-- The index one past the last `'/'`, 0 when there is none: `p.rfind('/') + 1`
of posixpath.dirname. -/
def rfindSlashSucc : List Char → Nat
  | [] => 0
  | c :: rest =>
      if rfindSlashSucc rest > 0 then rfindSlashSucc rest + 1
      else if c = '/' then 1 else 0

/-- Strip trailing slashes: `head.rstrip('/')`. -/
def rstripSlash (l : List Char) : List Char :=
  (l.reverse.dropWhile (fun c => c == '/')).reverse

/-- Whether the string is all slashes: `head == '/' * len(head)`. -/
def allSlash (l : List Char) : Bool := l.all (fun c => c == '/')

/-- Model of `os.path.dirname` (posixpath): everything up to the last `'/'`,
with trailing slashes stripped unless the head is all slashes. -/
def dirname (p : List Char) : List Char :=
  let head := p.take (rfindSlashSucc p)
  if head.isEmpty then head
  else if allSlash head then head
  else rstripSlash head

/-- Outcome of one `save_to_json` call: the serialized document written, or the
`FileNotFoundError` that `os.makedirs` raises before anything is written. -/
inductive SaveOutcome where
  | ok (written : List Char)
  | fileNotFoundError
deriving DecidableEq

/-- Model of `StackExchangeCollector.save_to_json` (lines 261-275):
`os.makedirs(os.path.dirname(file_path), exist_ok=True)` runs first and raises
`FileNotFoundError` when the dirname is the empty string (a bare filename);
otherwise, on a writable filesystem, the call writes
`json.dump(data, f, ensure_ascii=False, indent=2)` to the file. -/
def save_to_json (data : List QA) (file_path : String) : SaveOutcome :=
  if (dirname file_path.data).isEmpty then .fileNotFoundError
  else .ok (dumps (recordsToJson data) 0)

/-- A remainder that cannot extend a serialized integer: empty, or headed by a
non-digit. -/
def delimOk : List Char → Bool
  | [] => true
  | c :: _ => !(isDigitChar c)

/-- All-whitespace test for separator runs. -/
def wsOnly (l : List Char) : Bool := l.all isWsChar

/-- The all-zeros random source, used for concrete instantiations. -/
def rng0 : Rng := ⟨fun _ => 0, 0⟩

/-- A concrete mock-mode collector, used for concrete instantiations. -/
def mockC : Collector := ⟨true, 100, fun _ => .apiError, fun _ => .apiError⟩

/-- A concrete question record, used for concrete instantiations. -/
def qWith (n : Nat) : Question := { (default : Question) with question_id := n }

/-- A concrete answer record, used for concrete instantiations. -/
def a0 : Answer := default

/-- A concrete live-mode collector whose answer fetch fails for question 5 only,
used for concrete instantiations. -/
def liveC : Collector :=
  ⟨false, 10, fun _ => .ok [qWith 5, qWith 7],
    fun qid => if qid = 5 then .otherError else .ok [a0]⟩

/-! ### Basic facts about the random-source model and the mock generators -/

theorem randint_bounds (lo hi : Nat) (g : Rng) (h : lo ≤ hi) :
    lo ≤ (randint lo hi g).1 ∧ (randint lo hi g).1 ≤ hi := by
  have hm : g.stream g.pos % (hi - lo + 1) < hi - lo + 1 := Nat.mod_lt _ (by omega)
  simp only [randint, Rng.next]
  omega

theorem mkMockAnswer_answer_id (qid i : Nat) (now : Int) (g : Rng) :
    ((mkMockAnswer qid i now g).1).answer_id = qid * 100 + i := rfl

theorem mkMockAnswer_is_accepted (qid i : Nat) (now : Int) (g : Rng) :
    ((mkMockAnswer qid i now g).1).is_accepted = (i == 1) := rfl

theorem gen_answers_go_fst_cons (qid : Nat) (now : Int) (i : Nat) (rest : List Nat) (g : Rng) :
    (generate_mock_answers_go qid now (i :: rest) g).1
      = (mkMockAnswer qid i now g).1
          :: (generate_mock_answers_go qid now rest (mkMockAnswer qid i now g).2).1 := rfl

theorem gen_answers_go_map_id (qid : Nat) (now : Int) :
    ∀ (idxs : List Nat) (g : Rng),
      ((generate_mock_answers_go qid now idxs g).1).map Answer.answer_id
        = idxs.map (fun i => qid * 100 + i)
  | [], _ => rfl
  | i :: rest, g => by
      rw [gen_answers_go_fst_cons, List.map_cons, List.map_cons, mkMockAnswer_answer_id,
        gen_answers_go_map_id qid now rest _]

theorem gen_answers_go_map_acc (qid : Nat) (now : Int) :
    ∀ (idxs : List Nat) (g : Rng),
      ((generate_mock_answers_go qid now idxs g).1).map Answer.is_accepted
        = idxs.map (fun i => i == 1)
  | [], _ => rfl
  | i :: rest, g => by
      rw [gen_answers_go_fst_cons, List.map_cons, List.map_cons, mkMockAnswer_is_accepted,
        gen_answers_go_map_acc qid now rest _]

theorem gen_answers_go_length (qid : Nat) (now : Int) (idxs : List Nat) (g : Rng) :
    ((generate_mock_answers_go qid now idxs g).1).length = idxs.length := by
  have h := congrArg List.length (gen_answers_go_map_id qid now idxs g)
  simpa using h

theorem generate_mock_answers_eq (qid : Nat) (now : Int) (g : Rng) :
    generate_mock_answers qid now g
      = generate_mock_answers_go qid now (List.range' 1 (randint 1 5 g).1) (randint 1 5 g).2 := rfl

theorem generate_mock_answers_length (qid : Nat) (now : Int) (g : Rng) :
    ((generate_mock_answers qid now g).1).length = (randint 1 5 g).1 := by
  rw [generate_mock_answers_eq, gen_answers_go_length, List.length_range']

theorem generate_mock_answers_len_bounds (qid : Nat) (now : Int) (g : Rng) :
    1 ≤ ((generate_mock_answers qid now g).1).length ∧
      ((generate_mock_answers qid now g).1).length ≤ 5 := by
  rw [generate_mock_answers_length]
  exact randint_bounds 1 5 g (by omega)

theorem generate_mock_answers_map_id (qid : Nat) (now : Int) (g : Rng) :
    ((generate_mock_answers qid now g).1).map Answer.answer_id
      = (List.range' 1 ((generate_mock_answers qid now g).1).length).map
          (fun i => qid * 100 + i) := by
  rw [generate_mock_answers_length, generate_mock_answers_eq, gen_answers_go_map_id]

theorem range'_succ_eq (s m : Nat) : List.range' s (m + 1) = s :: List.range' (s + 1) m := rfl

theorem range'_map_beq_one (m : Nat) : ∀ s : Nat, 2 ≤ s →
    (List.range' s m).map (fun i => i == 1) = List.replicate m false := by
  induction m with
  | zero => intro s _; rfl
  | succ m ih =>
      intro s hs
      rw [range'_succ_eq, List.map_cons, List.replicate_succ, ih (s + 1) (by omega)]
      have hs1 : (s == 1) = false := by simp; omega
      rw [hs1]

theorem generate_mock_answers_map_acc (qid : Nat) (now : Int) (g : Rng) :
    ((generate_mock_answers qid now g).1).map Answer.is_accepted
      = true :: List.replicate (((generate_mock_answers qid now g).1).length - 1) false := by
  have h1 := (generate_mock_answers_len_bounds qid now g).1
  rw [generate_mock_answers_length] at h1 ⊢
  rw [generate_mock_answers_eq, gen_answers_go_map_acc]
  obtain ⟨n, hn⟩ : ∃ n, (randint 1 5 g).1 = n + 1 := ⟨(randint 1 5 g).1 - 1, by omega⟩
  rw [hn, range'_succ_eq, List.map_cons, range'_map_beq_one n 2 (by omega)]
  simp

theorem mkMockQuestion_question_id (i : Nat) (now : Int) (g : Rng) :
    ((mkMockQuestion i now g).1).question_id = i := rfl

theorem mkMockQuestion_accepted_id (i : Nat) (now : Int) (g : Rng) :
    ((mkMockQuestion i now g).1).accepted_answer_id = some (i * 100) := rfl

theorem gen_questions_go_fst_cons (now : Int) (i : Nat) (rest : List Nat) (g : Rng) :
    (generate_mock_questions_go now (i :: rest) g).1
      = (mkMockQuestion i now g).1
          :: (generate_mock_questions_go now rest (mkMockQuestion i now g).2).1 := rfl

theorem gen_questions_go_map_ids (now : Int) :
    ∀ (idxs : List Nat) (g : Rng),
      ((generate_mock_questions_go now idxs g).1).map
          (fun q => (q.question_id, q.accepted_answer_id))
        = idxs.map (fun i => (i, some (i * 100)))
  | [], _ => rfl
  | i :: rest, g => by
      rw [gen_questions_go_fst_cons, List.map_cons, List.map_cons,
        gen_questions_go_map_ids now rest _]
      rw [mkMockQuestion_question_id, mkMockQuestion_accepted_id]

theorem gen_questions_go_length (now : Int) (idxs : List Nat) (g : Rng) :
    ((generate_mock_questions_go now idxs g).1).length = idxs.length := by
  have h := congrArg List.length (gen_questions_go_map_ids now idxs g)
  simpa using h

theorem generate_mock_questions_length (count : Nat) (now : Int) (g : Rng) :
    ((generate_mock_questions count now g).1).length = count := by
  rw [generate_mock_questions, gen_questions_go_length, List.length_range']

theorem generate_mock_questions_map_ids (count : Nat) (now : Int) (g : Rng) :
    ((generate_mock_questions count now g).1).map
        (fun q => (q.question_id, q.accepted_answer_id))
      = (List.range' 1 count).map (fun i => (i, some (i * 100))) := by
  rw [generate_mock_questions, gen_questions_go_map_ids]

/-! ### The pipeline loop -/

theorem cwaLoop_cons (c : Collector) (now : Int) (total : Nat) (q : Question)
    (rest : List Question) (i : Nat) (acc : List QA) (cps : List Checkpoint) (g : Rng) :
    cwaLoop c now total (q :: rest) i acc cps g
      = cwaLoop c now total rest (i + 1)
          (acc ++ [⟨q, (collect_answers_for_question c q.question_id now g).1⟩])
          (if (i + 1) % 10 == 0 || i == total - 1
            then cps ++ [⟨i + 1, checkpointPath (i + 1),
                   acc ++ [⟨q, (collect_answers_for_question c q.question_id now g).1⟩]⟩]
            else cps)
          (collect_answers_for_question c q.question_id now g).2 := rfl

theorem cwaLoop_fst (c : Collector) (now : Int) (total : Nat) :
    ∀ (qs : List Question) (i : Nat) (acc : List QA) (cps : List Checkpoint) (g : Rng),
      (cwaLoop c now total qs i acc cps g).1 = acc ++ cwaAnswers c now qs g
  | [], _, acc, _, _ => by simp [cwaLoop, cwaAnswers]
  | q :: rest, i, acc, cps, g => by
      rw [cwaLoop_cons, cwaLoop_fst c now total rest (i + 1) _ _ _, cwaAnswers,
        List.append_assoc, List.singleton_append]

theorem cwaAnswers_length (c : Collector) (now : Int) :
    ∀ (qs : List Question) (g : Rng), (cwaAnswers c now qs g).length = qs.length
  | [], _ => rfl
  | _ :: rest, g => by
      rw [cwaAnswers, List.length_cons, List.length_cons, cwaAnswers_length c now rest _]

theorem cwa_eq (c : Collector) (K : Nat) (now : Int) (g : Rng) :
    collect_questions_with_answers c K now g
      = if (collect_questions c K now g).1.isEmpty
          then ([], [], (collect_questions c K now g).2)
          else cwaLoop c now (collect_questions c K now g).1.length
                 (collect_questions c K now g).1 0 [] [] (collect_questions c K now g).2 := rfl

theorem collect_questions_mock (ps : Nat) (qf : Nat → QFetch) (af : Nat → AFetch)
    (K : Nat) (now : Int) (g : Rng) :
    collect_questions ⟨true, ps, qf, af⟩ K now g = generate_mock_questions K now g := rfl

theorem collect_questions_live_eq (ps : Nat) (qf : Nat → QFetch) (af : Nat → AFetch)
    (K : Nat) (now : Int) (g : Rng) :
    collect_questions ⟨false, ps, qf, af⟩ K now g
      = (collect_questions_live ⟨false, ps, qf, af⟩ K, g) := rfl

theorem collect_questions_live_unfold (ps : Nat) (qf : Nat → QFetch) (af : Nat → AFetch)
    (K : Nat) :
    collect_questions_live ⟨false, ps, qf, af⟩ K
      = match qf (pagesFor ps K) with
        | QFetch.ok qs => if qs.length > K then qs.take K else qs
        | QFetch.apiError => [] := rfl

theorem collect_answers_mock (ps : Nat) (qf : Nat → QFetch) (af : Nat → AFetch)
    (qid : Nat) (now : Int) (g : Rng) :
    collect_answers_for_question ⟨true, ps, qf, af⟩ qid now g
      = generate_mock_answers qid now g := rfl

theorem collect_answers_live (ps : Nat) (qf : Nat → QFetch) (af : Nat → AFetch)
    (qid : Nat) (now : Int) (g : Rng) :
    collect_answers_for_question ⟨false, ps, qf, af⟩ qid now g = ((af qid).items, g) := by
  cases h : af qid <;> simp [collect_answers_for_question, AFetch.items, h]

theorem cwaAnswers_mock_nonempty (ps : Nat) (qf : Nat → QFetch) (af : Nat → AFetch)
    (now : Int) :
    ∀ (qs : List Question) (g : Rng),
      ∀ qa ∈ cwaAnswers ⟨true, ps, qf, af⟩ now qs g, qa.answers ≠ []
  | [], _ => by simp [cwaAnswers]
  | q :: rest, g => by
      intro qa hqa
      rw [cwaAnswers] at hqa
      rcases List.mem_cons.mp hqa with h | h
      · subst h
        show ((collect_answers_for_question ⟨true, ps, qf, af⟩ q.question_id now g).1) ≠ []
        rw [collect_answers_mock]
        intro hnil
        have h1 := (generate_mock_answers_len_bounds q.question_id now g).1
        rw [hnil] at h1
        simp at h1
      · exact cwaAnswers_mock_nonempty ps qf af now rest _ qa h

theorem cwaAnswers_live (ps : Nat) (qf : Nat → QFetch) (af : Nat → AFetch) (now : Int) :
    ∀ (qs : List Question) (g : Rng),
      cwaAnswers ⟨false, ps, qf, af⟩ now qs g
        = qs.map (fun q => ⟨q, (af q.question_id).items⟩)
  | [], _ => rfl
  | q :: rest, g => by
      rw [cwaAnswers, List.map_cons, collect_answers_live,
        cwaAnswers_live ps qf af now rest _]

theorem cwaLoop_cps_counts (c : Collector) (now : Int) (total : Nat) :
    ∀ (qs : List Question) (i : Nat) (acc : List QA) (cps : List Checkpoint) (g : Rng),
      i + qs.length = total →
      ((cwaLoop c now total qs i acc cps g).2.1).map Checkpoint.count
        = cps.map Checkpoint.count
            ++ (List.range' (i + 1) qs.length).filter (fun k => k % 10 == 0 || k == total)
  | [], i, acc, cps, g => by intro _; simp [cwaLoop]
  | q :: rest, i, acc, cps, g => by
      intro htot
      rw [cwaLoop_cons]
      have hb : (i == total - 1) = ((i + 1) == total) := by
        simp only [List.length_cons] at htot
        by_cases h : i + 1 = total
        · have h2 : i = total - 1 := by omega
          rw [beq_iff_eq.mpr h2, beq_iff_eq.mpr h]
        · have h2 : ¬(i = total - 1) := by omega
          rw [beq_eq_false_iff_ne.mpr h2, beq_eq_false_iff_ne.mpr h]
      rw [hb, cwaLoop_cps_counts c now total rest (i + 1) _ _ _
        (by simp only [List.length_cons] at htot; omega)]
      simp only [List.length_cons]
      rw [range'_succ_eq]
      rw [List.filter_cons]
      by_cases hc : ((i + 1) % 10 == 0 || (i + 1) == total) = true
      · simp [hc]
      · simp only [Bool.not_eq_true] at hc
        simp [hc]

theorem cwaLoop_cps_inv (c : Collector) (now : Int) (total : Nat) :
    ∀ (qs : List Question) (i : Nat) (acc : List QA) (cps : List Checkpoint) (g : Rng),
      acc.length = i →
      (∀ cp ∈ cps, cp.data = acc.take cp.count ∧ cp.count ≤ acc.length ∧
        cp.data.length = cp.count ∧ cp.path = checkpointPath cp.count) →
      ∀ cp ∈ (cwaLoop c now total qs i acc cps g).2.1,
        cp.data = (cwaLoop c now total qs i acc cps g).1.take cp.count ∧
        cp.data.length = cp.count ∧ cp.path = checkpointPath cp.count
  | [], i, acc, cps, g => by
      intro _ hinv cp hcp
      simp only [cwaLoop] at hcp ⊢
      obtain ⟨h1, _, h3, h4⟩ := hinv cp hcp
      exact ⟨h1, h3, h4⟩
  | q :: rest, i, acc, cps, g => by
      intro hlen hinv
      rw [cwaLoop_cons]
      refine cwaLoop_cps_inv c now total rest (i + 1) _ _ _ (by simp [hlen]) ?_
      intro cp hcp
      have hnew : cp ∈ cps ∨
          cp = (⟨i + 1, checkpointPath (i + 1),
            acc ++ [⟨q, (collect_answers_for_question c q.question_id now g).1⟩]⟩ :
              Checkpoint) := by
        by_cases hcond : ((i + 1) % 10 == 0 || i == total - 1) = true
        · rw [if_pos hcond] at hcp
          rcases List.mem_append.mp hcp with h | h
          · exact Or.inl h
          · exact Or.inr (List.mem_singleton.mp h)
        · rw [if_neg hcond] at hcp
          exact Or.inl hcp
      rcases hnew with h | h
      · obtain ⟨h1, h2, h3, h4⟩ := hinv cp h
        refine ⟨?_, ?_, h3, h4⟩
        · rw [List.take_append_of_le_length h2, h1]
        · simp
          omega
      · subst h
        refine ⟨?_, ?_, ?_, rfl⟩
        · simp [hlen]
        · simp
          omega
        · simp [hlen]

/-! ### The live page computation -/

theorem pagesFor_least (ps K : Nat) (hps : 0 < ps) :
    K ≤ pagesFor ps K * ps ∧ ∀ m : Nat, K ≤ m * ps → pagesFor ps K ≤ m := by
  have hd : pagesFor ps K = K ⌈/⌉ ps := (Nat.ceilDiv_eq_add_pred_div K ps).symm
  constructor
  · have h := (ceilDiv_le_iff_le_mul hps).mp (le_refl (K ⌈/⌉ ps))
    rw [hd, Nat.mul_comm]
    exact h
  · intro m hm
    rw [hd]
    exact (ceilDiv_le_iff_le_mul hps).mpr (by rwa [Nat.mul_comm] at hm)

theorem getD_mem {α : Type} (l : List α) (n : Nat) (d : α) (h : n < l.length) :
    l.getD n d ∈ l := by
  rw [List.getD_eq_getElem l d h]
  exact List.getElem_mem h

/-! ### The claims -/

/-- Claim C1: for every K and tag, `collect_questions_with_answers` with
`max_count = K` on a mock-mode collector returns exactly K questions, and every
returned question carries a non-empty `answers` sequence (the mock answer
generator always produces at least one answer). -/
theorem c1_mock_collect_exact (ps : Nat) (qf : Nat → QFetch) (af : Nat → AFetch)
    (K : Nat) (now : Int) (g : Rng) :
    ((collect_questions_with_answers ⟨true, ps, qf, af⟩ K now g).1).length = K ∧
    ∀ qa ∈ (collect_questions_with_answers ⟨true, ps, qf, af⟩ K now g).1,
      qa.answers ≠ [] := by
  rw [cwa_eq, collect_questions_mock]
  by_cases h : ((generate_mock_questions K now g).1).isEmpty = true
  · rw [if_pos h]
    have hlen := generate_mock_questions_length K now g
    rw [List.isEmpty_iff] at h
    rw [h] at hlen
    simp only [List.length_nil] at hlen
    subst hlen
    exact ⟨rfl, by intro qa hqa; simp at hqa⟩
  · rw [if_neg h, cwaLoop_fst, List.nil_append]
    constructor
    · rw [cwaAnswers_length, generate_mock_questions_length]
    · exact cwaAnswers_mock_nonempty ps qf af now _ _

/-- Witness for C1 at `K = 2` with the all-zeros random source. -/
theorem c1_mock_collect_exact_witness :
    ((collect_questions_with_answers mockC 2 0 rng0).1).length = 2 ∧
    ((collect_questions_with_answers mockC 2 0 rng0).1.getD 0 default).answers ≠ [] :=
  ⟨(c1_mock_collect_exact 100 (fun _ => .apiError) (fun _ => .apiError) 2 0 rng0).1,
   (c1_mock_collect_exact 100 (fun _ => .apiError) (fun _ => .apiError) 2 0 rng0).2
     _ (getD_mem _ 0 _ (by decide))⟩

/-- Claim C2: over any run, the checkpoint writes happen exactly after the
questions whose 1-based index is a multiple of 10, plus unconditionally after
the last question, each to the temp path embedding the running count; in
particular a mock run with `max_count = 25` checkpoints after questions 10, 20
and 25 and at no other point. -/
theorem c2_checkpoint_schedule (c : Collector) (K : Nat) (now : Int) (g : Rng) :
    (((collect_questions_with_answers c K now g).2.1).map Checkpoint.count
        = (List.range' 1 ((collect_questions c K now g).1).length).filter
            (fun k => k % 10 == 0 || k == ((collect_questions c K now g).1).length))
    ∧ (((collect_questions_with_answers c K now g).2.1).map Checkpoint.path
        = (((collect_questions_with_answers c K now g).2.1).map Checkpoint.count).map
            checkpointPath)
    ∧ (c.use_mock_data = true → K = 25 →
        ((collect_questions_with_answers c K now g).2.1).map Checkpoint.count
          = [10, 20, 25]) := by
  have hcounts : ((collect_questions_with_answers c K now g).2.1).map Checkpoint.count
      = (List.range' 1 ((collect_questions c K now g).1).length).filter
          (fun k => k % 10 == 0 || k == ((collect_questions c K now g).1).length) := by
    rw [cwa_eq]
    by_cases h : ((collect_questions c K now g).1).isEmpty = true
    · rw [List.isEmpty_iff] at h
      rw [if_pos (by rw [h]; rfl), h]
      rfl
    · rw [if_neg h, cwaLoop_cps_counts c now _ _ 0 [] [] _ (by omega)]
      rfl
  refine ⟨hcounts, ?_, ?_⟩
  · have hpaths : ∀ cp ∈ (collect_questions_with_answers c K now g).2.1,
        cp.path = checkpointPath cp.count := by
      rw [cwa_eq]
      by_cases h : ((collect_questions c K now g).1).isEmpty = true
      · rw [if_pos h]
        intro cp hcp
        simp at hcp
      · rw [if_neg h]
        intro cp hcp
        exact (cwaLoop_cps_inv c now _ _ 0 [] [] _ rfl (by simp) cp hcp).2.2
    rw [List.map_map]
    exact List.map_congr_left hpaths
  · intro hmock hK
    subst hK
    have hlen : ((collect_questions c 25 now g).1).length = 25 := by
      rcases c with ⟨b, ps, qf, af⟩
      simp only at hmock
      subst hmock
      rw [collect_questions_mock, generate_mock_questions_length]
    rw [hcounts, hlen]
    decide

/-- Witness for C2's mock-25 implication, with the all-zeros random source. -/
theorem c2_checkpoint_schedule_witness :
    ((collect_questions_with_answers mockC 25 0 rng0).2.1).map Checkpoint.count
      = [10, 20, 25] :=
  (c2_checkpoint_schedule mockC 25 0 rng0).2.2 rfl rfl

/-- Claim C3: in live mode a failing answer fetch for one question never aborts
the pipeline: every question in the result carries exactly the answers its own
fetch returned, a failed fetch (StackAPIError or any other exception) yielding
the empty sequence for that question only. -/
theorem c3_error_isolation (ps : Nat) (qf : Nat → QFetch) (af : Nat → AFetch)
    (K : Nat) (now : Int) (g : Rng) :
    ((collect_questions_with_answers ⟨false, ps, qf, af⟩ K now g).1
        = (collect_questions_live ⟨false, ps, qf, af⟩ K).map
            (fun q => ⟨q, (af q.question_id).items⟩))
    ∧ (∀ qa ∈ (collect_questions_with_answers ⟨false, ps, qf, af⟩ K now g).1,
        qa.answers = (af qa.q.question_id).items)
    ∧ (∀ qa ∈ (collect_questions_with_answers ⟨false, ps, qf, af⟩ K now g).1,
        (af qa.q.question_id = .apiError ∨ af qa.q.question_id = .otherError) →
          qa.answers = []) := by
  have hmain : (collect_questions_with_answers ⟨false, ps, qf, af⟩ K now g).1
      = (collect_questions_live ⟨false, ps, qf, af⟩ K).map
          (fun q => ⟨q, (af q.question_id).items⟩) := by
    rw [cwa_eq, collect_questions_live_eq]
    by_cases h : (collect_questions_live ⟨false, ps, qf, af⟩ K).isEmpty = true
    · rw [List.isEmpty_iff] at h
      rw [if_pos (by rw [h]; rfl), h]
      rfl
    · rw [if_neg h, cwaLoop_fst, List.nil_append, cwaAnswers_live]
  refine ⟨hmain, ?_, ?_⟩
  · intro qa hqa
    rw [hmain] at hqa
    obtain ⟨q, _, rfl⟩ := List.mem_map.mp hqa
    rfl
  · intro qa hqa herr
    rw [hmain] at hqa
    obtain ⟨q, _, rfl⟩ := List.mem_map.mp hqa
    rcases herr with h | h <;> simp only at h <;> rw [h] <;> rfl

/-- Witness for C3: with a concrete live collector whose answer fetch fails for
question 5 only, question 5 ends with empty answers and question 7 keeps its own. -/
theorem c3_error_isolation_witness :
    ((collect_questions_with_answers liveC 10 0 rng0).1.getD 0 default).answers = [] ∧
    ((collect_questions_with_answers liveC 10 0 rng0).1.getD 1 default).answers = [a0] :=
  ⟨(c3_error_isolation 10 liveC.qfetch liveC.afetch 10 0 rng0).2.2
      _ (getD_mem _ 0 _ (by decide)) (Or.inr (by decide)),
   ((c3_error_isolation 10 liveC.qfetch liveC.afetch 10 0 rng0).2.1
      _ (getD_mem _ 1 _ (by decide))).trans (by decide)⟩

/-- Claim C4: in live mode a transport or remote failure of the question fetch
(a StackAPIError from the client) is caught locally and `collect_questions`
returns the empty sequence. -/
theorem c4_questions_degrade_empty (ps : Nat) (qf : Nat → QFetch) (af : Nat → AFetch)
    (K : Nat) (now : Int) (g : Rng) (h : qf (pagesFor ps K) = .apiError) :
    (collect_questions ⟨false, ps, qf, af⟩ K now g).1 = [] := by
  show collect_questions_live ⟨false, ps, qf, af⟩ K = []
  rw [collect_questions_live_unfold, h]

/-- Witness for C4 with the constantly failing question fetch. -/
theorem c4_questions_degrade_empty_witness :
    (collect_questions ⟨false, 10, fun _ => .apiError, fun _ => .apiError⟩ 5 0 rng0).1
      = [] :=
  c4_questions_degrade_empty 10 (fun _ => .apiError) (fun _ => .apiError) 5 0 rng0 rfl

/-- Claim C5: in live mode with positive `max_count` and `page_size`, the number
of pages set before the request is exactly `ceil(max_count / page_size)` (the
least page count covering `max_count`), an oversized response is truncated to
the first `max_count` items, and the call never returns more than `max_count`
questions. -/
theorem c5_pages_and_truncation (ps : Nat) (qf : Nat → QFetch) (af : Nat → AFetch)
    (K : Nat) (now : Int) (g : Rng) (hps : 0 < ps) (hK : 0 < K) :
    (K ≤ pagesFor ps K * ps ∧ ∀ m : Nat, K ≤ m * ps → pagesFor ps K ≤ m)
    ∧ (∀ items : List Question, qf (pagesFor ps K) = .ok items → items.length > K →
        (collect_questions ⟨false, ps, qf, af⟩ K now g).1 = items.take K)
    ∧ ((collect_questions ⟨false, ps, qf, af⟩ K now g).1).length ≤ K := by
  refine ⟨pagesFor_least ps K hps, ?_, ?_⟩
  · intro items hqf hlen
    show collect_questions_live ⟨false, ps, qf, af⟩ K = items.take K
    rw [collect_questions_live_unfold, hqf]
    show (if items.length > K then items.take K else items) = items.take K
    rw [if_pos hlen]
  · show (collect_questions_live ⟨false, ps, qf, af⟩ K).length ≤ K
    rw [collect_questions_live_unfold]
    cases hqf : qf (pagesFor ps K) with
    | ok items =>
        show (if items.length > K then items.take K else items).length ≤ K
        by_cases h : items.length > K
        · rw [if_pos h]
          simp only [List.length_take]
          omega
        · rw [if_neg h]
          omega
    | apiError =>
        show ([] : List Question).length ≤ K
        simp

/-- Witness for C5 at `page_size = 10`, `max_count = 25`, with a 30-item response. -/
theorem c5_pages_and_truncation_witness :
    (25 ≤ pagesFor 10 25 * 10 ∧ ∀ m : Nat, 25 ≤ m * 10 → pagesFor 10 25 ≤ m) ∧
    (collect_questions ⟨false, 10, fun _ => .ok (List.replicate 30 default),
        fun _ => .apiError⟩ 25 0 rng0).1
      = (List.replicate 30 (default : Question)).take 25 ∧
    ((collect_questions ⟨false, 10, fun _ => .ok (List.replicate 30 default),
        fun _ => .apiError⟩ 25 0 rng0).1).length ≤ 25 := by
  have h := c5_pages_and_truncation 10 (fun _ => .ok (List.replicate 30 default))
    (fun _ => .apiError) 25 0 rng0 (by decide) (by decide)
  exact ⟨h.1, h.2.1 _ rfl (by simp), h.2.2⟩

/-- Claim C6: for every question id, the mock answer generator returns between
1 and 5 answers, exactly the first of which is marked accepted, and the answer
at 1-based position i carries identifier `question_id * 100 + i`. -/
theorem c6_mock_answers_shape (qid : Nat) (now : Int) (g : Rng) :
    1 ≤ ((generate_mock_answers qid now g).1).length
    ∧ ((generate_mock_answers qid now g).1).length ≤ 5
    ∧ ((generate_mock_answers qid now g).1).map Answer.is_accepted
        = true :: List.replicate (((generate_mock_answers qid now g).1).length - 1) false
    ∧ ((generate_mock_answers qid now g).1).map Answer.answer_id
        = (List.range' 1 ((generate_mock_answers qid now g).1).length).map
            (fun i => qid * 100 + i) :=
  ⟨(generate_mock_answers_len_bounds qid now g).1,
   (generate_mock_answers_len_bounds qid now g).2,
   generate_mock_answers_map_acc qid now g,
   generate_mock_answers_map_id qid now g⟩

/-- Claim C9 (implicit): mock question i carries `accepted_answer_id = i * 100`,
while every mock answer for question id i has an identifier of the form
`i * 100 + j` with `1 ≤ j ≤ 5`; hence no generated answer, the accepted one
included, ever carries the question's `accepted_answer_id`. -/
theorem c9_accepted_id_mismatch (count : Nat) (now : Int) (g : Rng)
    (qid : Nat) (now2 : Int) (g2 : Rng) :
    (((generate_mock_questions count now g).1).map
        (fun q => (q.question_id, q.accepted_answer_id))
      = (List.range' 1 count).map (fun i => (i, some (i * 100))))
    ∧ (((generate_mock_answers qid now2 g2).1).map Answer.answer_id
        = (List.range' 1 ((generate_mock_answers qid now2 g2).1).length).map
            (fun i => qid * 100 + i))
    ∧ ((generate_mock_answers qid now2 g2).1).length ≤ 5
    ∧ qid * 100 ∉ ((generate_mock_answers qid now2 g2).1).map Answer.answer_id := by
  refine ⟨generate_mock_questions_map_ids count now g,
    generate_mock_answers_map_id qid now2 g2,
    (generate_mock_answers_len_bounds qid now2 g2).2, ?_⟩
  rw [generate_mock_answers_map_id]
  intro hmem
  obtain ⟨i, hi, heq⟩ := List.mem_map.mp hmem
  rw [List.mem_range'] at hi
  omega

/-- Witness for C9's no-collision part at question id 1. -/
theorem c9_accepted_id_mismatch_witness :
    1 * 100 ∉ ((generate_mock_answers 1 0 rng0).1).map Answer.answer_id :=
  (c9_accepted_id_mismatch 1 0 rng0 1 0 rng0).2.2.2

/-- Claim C7: every checkpoint written during a run is a cumulative prefix of
the final returned sequence: the checkpoint with running count k holds exactly
the first k entries of the final result (already merged), no partial records. -/
theorem c7_checkpoints_are_prefixes (c : Collector) (K : Nat) (now : Int) (g : Rng) :
    ∀ cp ∈ (collect_questions_with_answers c K now g).2.1,
      cp.data = (collect_questions_with_answers c K now g).1.take cp.count ∧
      cp.data.length = cp.count ∧ cp.path = checkpointPath cp.count := by
  rw [cwa_eq]
  by_cases h : ((collect_questions c K now g).1).isEmpty = true
  · rw [if_pos h]
    intro cp hcp
    simp at hcp
  · rw [if_neg h]
    exact cwaLoop_cps_inv c now _ _ 0 [] [] _ rfl (by simp)

/-! ### JSON: the integer codec -/

theorem toNat_ofNat_small (n : Nat) (h : n < 55296) : (Char.ofNat n).toNat = n := by
  unfold Char.ofNat
  rw [dif_pos (Or.inl h)]
  rfl

theorem digitChar_toNat (d : Nat) (h : d < 10) : (digitChar d).toNat = 48 + d := by
  rw [digitChar, toNat_ofNat_small _ (by omega)]

theorem isDigitChar_digitChar (d : Nat) (h : d < 10) : isDigitChar (digitChar d) = true := by
  simp only [isDigitChar, digitChar_toNat d h, Bool.and_eq_true, decide_eq_true_eq]
  omega

theorem foldl_digits_aux (L : List Nat) : ∀ acc : Nat, (∀ d ∈ L, d < 10) →
    List.foldl (fun a c => a * 10 + (c.toNat - 48)) acc ((L.map digitChar).reverse)
      = acc * 10 ^ L.length + Nat.ofDigits 10 L := by
  induction L with
  | nil => intro acc _; simp [Nat.ofDigits_nil]
  | cons d L ih =>
      intro acc hd
      rw [List.map_cons, List.reverse_cons, List.foldl_append,
        ih acc (fun x hx => hd x (List.mem_cons_of_mem _ hx)), List.foldl_cons,
        List.foldl_nil, Nat.ofDigits_cons]
      have hdd : d < 10 := hd d (List.mem_cons_self ..)
      rw [digitChar_toNat d hdd, Nat.add_sub_cancel_left, List.length_cons]
      ring

theorem digitsToNat_natChars (n : Nat) : digitsToNat (natChars n) = n := by
  by_cases h : n = 0
  · subst h; decide
  · rw [natChars, if_neg h, digitsToNat,
      foldl_digits_aux _ 0 (fun d hd => Nat.digits_lt_base (by omega) hd),
      Nat.ofDigits_digits]
    simp

theorem natChars_all_digits (n : Nat) : ∀ c ∈ natChars n, isDigitChar c = true := by
  intro c hc
  rw [natChars] at hc
  by_cases h : n = 0
  · rw [if_pos h] at hc
    rw [List.mem_singleton] at hc
    subst hc
    decide
  · rw [if_neg h, List.mem_reverse, List.mem_map] at hc
    obtain ⟨d, hd, rfl⟩ := hc
    exact isDigitChar_digitChar d (Nat.digits_lt_base (by omega) hd)

theorem natChars_ne_nil (n : Nat) : natChars n ≠ [] := by
  rw [natChars]
  by_cases h : n = 0
  · simp [h]
  · simp [h, Nat.digits_ne_nil_iff_ne_zero.mpr h]

theorem natChars_cons (n : Nat) : ∃ c t, natChars n = c :: t ∧ isDigitChar c = true := by
  cases h : natChars n with
  | nil => exact absurd h (natChars_ne_nil n)
  | cons c t => exact ⟨c, t, rfl, natChars_all_digits n c (h ▸ List.mem_cons_self ..)⟩

theorem takeDigits_delim (r : List Char) (h : delimOk r = true) : takeDigits r = ([], r) := by
  cases r with
  | nil => rfl
  | cons c t =>
      simp only [delimOk, Bool.not_eq_true'] at h
      simp [takeDigits, h]

theorem takeDigits_split (ds rest : List Char) (hds : ds.all isDigitChar = true)
    (hrest : delimOk rest = true) : takeDigits (ds ++ rest) = (ds, rest) := by
  induction ds with
  | nil =>
      rw [List.nil_append]
      exact takeDigits_delim rest hrest
  | cons c t ih =>
      rw [List.all_cons, Bool.and_eq_true] at hds
      rw [List.cons_append]
      simp [takeDigits, hds.1, ih hds.2]

theorem isDigitChar_ne_minus (c : Char) (h : isDigitChar c = true) : c ≠ '-' := by
  intro hc
  subst hc
  exact absurd h (by decide)

theorem parseInt_round (n : Int) (rest : List Char) (hr : delimOk rest = true) :
    parseInt (intChars n ++ rest) = some (n, rest) := by
  have htd : takeDigits (natChars n.natAbs ++ rest) = (natChars n.natAbs, rest) :=
    takeDigits_split _ rest (List.all_eq_true.mpr (natChars_all_digits _)) hr
  by_cases hn : n < 0
  · have harg : intChars n ++ rest = '-' :: (natChars n.natAbs ++ rest) := by
      rw [intChars, if_pos hn]
      rfl
    rw [harg]
    simp only [parseInt, htd]
    rw [if_neg (by simp [natChars_ne_nil])]
    rw [digitsToNat_natChars]
    have hval : -((n.natAbs : Nat) : Int) = n := by omega
    rw [hval]
  · obtain ⟨c, t, hchars, hc⟩ := natChars_cons n.natAbs
    have hcm : c ≠ '-' := isDigitChar_ne_minus c hc
    have harg : intChars n ++ rest = c :: (t ++ rest) := by
      rw [intChars, if_neg hn, hchars]
      rfl
    have h2 : takeDigits (c :: (t ++ rest)) = (c :: t, rest) := by
      rw [hchars] at htd
      simpa using htd
    have h3 : digitsToNat (c :: t) = n.natAbs := by
      rw [← hchars, digitsToNat_natChars]
    have hval : ((n.natAbs : Nat) : Int) = n := by omega
    rw [harg]
    simp [parseInt, hcm, h2, h3, hval]

/-! ### JSON: the string codec -/

theorem hexVal_hexDigit (k : Nat) (h : k < 16) : hexVal (hexDigit k) = some k := by
  interval_cases k <;> decide

theorem parseStrBody_u (f : Nat) (a b : Nat) (ha : a < 16) (hb : b < 16) (r : List Char) :
    parseStrBody (f + 1) ('\\' :: 'u' :: '0' :: '0' :: hexDigit a :: hexDigit b :: r)
      = match parseStrBody f r with
        | some (s, rest) => some (Char.ofNat (a * 16 + b) :: s, rest)
        | none => none := by
  have h0 : hexVal '0' = some 0 := by decide
  have e1 : parseStrBody (f + 1) ('\\' :: 'u' :: '0' :: '0' :: hexDigit a :: hexDigit b :: r)
      = match hexVal '0', hexVal '0', hexVal (hexDigit a), hexVal (hexDigit b) with
        | some va, some vb, some vc, some vd =>
            (match parseStrBody f r with
             | some (s, rest) =>
                 some (Char.ofNat (((va * 16 + vb) * 16 + vc) * 16 + vd) :: s, rest)
             | none => none)
        | _, _, _, _ => none := rfl
  rw [e1, hexVal_hexDigit a ha, hexVal_hexDigit b hb, h0]
  show (match parseStrBody f r with
        | some (s, rest) => some (Char.ofNat (((0 * 16 + 0) * 16 + a) * 16 + b) :: s, rest)
        | none => none) = _
  rw [show ((0 * 16 + 0) * 16 + a) * 16 + b = a * 16 + b by ring]

theorem escapeChar_length_pos (c : Char) : 1 ≤ (escapeChar c).length := by
  rw [escapeChar]
  repeat' split
  all_goals simp

theorem escape_step (c : Char) (f : Nat) (r : List Char) :
    parseStrBody (f + 1) (escapeChar c ++ r)
      = match parseStrBody f r with
        | some (s, rest) => some (c :: s, rest)
        | none => none := by
  rw [escapeChar]
  by_cases h1 : c = '"'
  · subst h1; rw [if_pos rfl]; rfl
  rw [if_neg h1]
  by_cases h2 : c = '\\'
  · subst h2; rw [if_pos rfl]; rfl
  rw [if_neg h2]
  by_cases h3 : c = '\n'
  · subst h3; rw [if_pos rfl]; rfl
  rw [if_neg h3]
  by_cases h4 : c = '\r'
  · subst h4; rw [if_pos rfl]; rfl
  rw [if_neg h4]
  by_cases h5 : c = '\t'
  · subst h5; rw [if_pos rfl]; rfl
  rw [if_neg h5]
  by_cases h6 : c = '\x08'
  · subst h6; rw [if_pos rfl]; rfl
  rw [if_neg h6]
  by_cases h7 : c = '\x0c'
  · subst h7; rw [if_pos rfl]; rfl
  rw [if_neg h7]
  by_cases h8 : c.toNat < 32
  · rw [if_pos h8]
    rw [show ('\\' :: ('u' :: '0' :: '0' :: hexDigit (c.toNat / 16) ::
        hexDigit (c.toNat % 16) :: [])) ++ r
      = '\\' :: 'u' :: '0' :: '0' :: hexDigit (c.toNat / 16) ::
        hexDigit (c.toNat % 16) :: r from rfl]
    rw [parseStrBody_u f _ _ (by omega) (Nat.mod_lt _ (by omega)) r]
    have harith : c.toNat / 16 * 16 + c.toNat % 16 = c.toNat := by omega
    rw [harith, Char.ofNat_toNat]
  · rw [if_neg h8]
    simp only [List.singleton_append, parseStrBody, if_neg h1, if_neg h2]
    rfl

theorem parseStrBody_round (s : List Char) : ∀ (f : Nat) (r : List Char),
    (escapeStr s).length < f →
    parseStrBody f (escapeStr s ++ '"' :: r) = some (s, r) := by
  induction s with
  | nil =>
      intro f r hf
      obtain ⟨f2, rfl⟩ : ∃ f2, f = f2 + 1 := ⟨f - 1, by omega⟩
      rw [show escapeStr [] = [] from rfl, List.nil_append]
      simp [parseStrBody]
  | cons c s ih =>
      intro f r hf
      rw [show escapeStr (c :: s) = escapeChar c ++ escapeStr s from List.flatMap_cons ..] at hf ⊢
      rw [List.length_append] at hf
      have h1 := escapeChar_length_pos c
      obtain ⟨f2, rfl⟩ : ∃ f2, f = f2 + 1 := ⟨f - 1, by omega⟩
      rw [List.append_assoc, escape_step, ih f2 r (by omega)]

/-! ### JSON: whitespace and the first serialized character -/

theorem skipWs_cons_not (c : Char) (t : List Char) (h : isWsChar c = false) :
    skipWs (c :: t) = c :: t := by
  simp [skipWs, h]

theorem skipWs_ws_append (l : List Char) : ∀ r : List Char, wsOnly l = true →
    skipWs (l ++ r) = skipWs r := by
  induction l with
  | nil => intro r _; rfl
  | cons c t ih =>
      intro r hl
      simp only [wsOnly, List.all_cons, Bool.and_eq_true] at hl
      rw [List.cons_append]
      simp only [skipWs, if_pos hl.1]
      exact ih r hl.2

theorem wsOnly_ind (n : Nat) : wsOnly (ind n) = true := by
  induction n with
  | zero => rfl
  | succ n ih =>
      show (List.replicate (n + 1) ' ').all isWsChar = true
      rw [List.replicate_succ, List.all_cons, show isWsChar ' ' = true by decide,
        Bool.true_and]
      exact ih

theorem wsOnly_newline_ind (n : Nat) : wsOnly ('\n' :: ind n) = true := by
  show ('\n' :: ind n).all isWsChar = true
  rw [List.all_cons, show isWsChar '\n' = true by decide, Bool.true_and]
  exact wsOnly_ind n

theorem dumps_null (lvl : Nat) : dumps .jnull lvl = ['n', 'u', 'l', 'l'] := by
  simp [dumps]

theorem dumps_true (lvl : Nat) : dumps (.jbool true) lvl = ['t', 'r', 'u', 'e'] := by
  simp [dumps]

theorem dumps_false (lvl : Nat) : dumps (.jbool false) lvl = ['f', 'a', 'l', 's', 'e'] := by
  simp [dumps]

theorem dumps_int (n : Int) (lvl : Nat) : dumps (.jint n) lvl = intChars n := by
  simp [dumps]

theorem dumps_str (s : List Char) (lvl : Nat) :
    dumps (.jstr s) lvl = '"' :: (escapeStr s ++ ['"']) := by
  simp [dumps]

theorem dumps_arr_nil (lvl : Nat) : dumps (.jarr []) lvl = ['[', ']'] := by
  simp [dumps]

theorem dumps_arr_cons (x : JValue) (xs : List JValue) (lvl : Nat) :
    dumps (.jarr (x :: xs)) lvl
      = '[' :: '\n' :: (ind (lvl + 2) ++ (dumps x (lvl + 2)
          ++ (dumpsArrTail xs (lvl + 2) ++ ('\n' :: (ind lvl ++ [']']))))) := by
  simp [dumps]

theorem dumps_obj_nil (lvl : Nat) : dumps (.jobj []) lvl = ['\x7b', '\x7d'] := by
  simp [dumps]

theorem dumps_obj_cons (kv : List Char × JValue) (kvs : List (List Char × JValue))
    (lvl : Nat) :
    dumps (.jobj (kv :: kvs)) lvl
      = '\x7b' :: '\n' :: (ind (lvl + 2) ++ (dumpsMember kv (lvl + 2)
          ++ (dumpsObjTail kvs (lvl + 2) ++ ('\n' :: (ind lvl ++ ['\x7d']))))) := by
  simp [dumps]

theorem dumpsMember_eq (k : List Char) (v : JValue) (lvl : Nat) :
    dumpsMember (k, v) lvl = '"' :: (escapeStr k ++ ('"' :: ':' :: ' ' :: dumps v lvl)) := by
  simp [dumpsMember]

theorem dumpsArrTail_nil (lvl : Nat) : dumpsArrTail [] lvl = [] := by
  simp [dumpsArrTail]

theorem dumpsArrTail_cons (x : JValue) (xs : List JValue) (lvl : Nat) :
    dumpsArrTail (x :: xs) lvl
      = ',' :: '\n' :: (ind lvl ++ (dumps x lvl ++ dumpsArrTail xs lvl)) := by
  simp [dumpsArrTail]

theorem dumpsObjTail_nil (lvl : Nat) : dumpsObjTail [] lvl = [] := by
  simp [dumpsObjTail]

theorem dumpsObjTail_cons (kv : List Char × JValue) (kvs : List (List Char × JValue))
    (lvl : Nat) :
    dumpsObjTail (kv :: kvs) lvl
      = ',' :: '\n' :: (ind lvl ++ (dumpsMember kv lvl ++ dumpsObjTail kvs lvl)) := by
  simp [dumpsObjTail]

theorem isDigitChar_not_special (c : Char) (h : isDigitChar c = true) :
    isWsChar c = false ∧ c ≠ ']' ∧ c ≠ '\x7d' ∧ c ≠ 'n' ∧ c ≠ 't' ∧ c ≠ 'f' ∧
    c ≠ '"' ∧ c ≠ '[' ∧ c ≠ '\x7b' := by
  refine ⟨?_, ?_, ?_, ?_, ?_, ?_, ?_, ?_, ?_⟩
  · simp only [isDigitChar, Bool.and_eq_true, decide_eq_true_eq] at h
    simp only [isWsChar, Bool.or_eq_false_iff, decide_eq_false_iff_not]
    omega
  all_goals (intro hc; subst hc; exact absurd h (by decide))

theorem dumps_head (v : JValue) (lvl : Nat) :
    ∃ c t, dumps v lvl = c :: t ∧ isWsChar c = false ∧ c ≠ ']' ∧ c ≠ '\x7d' := by
  cases v with
  | jnull => exact ⟨'n', _, dumps_null lvl, by decide, by decide, by decide⟩
  | jbool b =>
      cases b with
      | true => exact ⟨'t', _, dumps_true lvl, by decide, by decide, by decide⟩
      | false => exact ⟨'f', _, dumps_false lvl, by decide, by decide, by decide⟩
  | jint n =>
      by_cases hn : n < 0
      · refine ⟨'-', natChars n.natAbs, ?_, by decide, by decide, by decide⟩
        rw [dumps_int, intChars, if_pos hn]
      · obtain ⟨c, t, hch, hc⟩ := natChars_cons n.natAbs
        obtain ⟨hws, hbr, hbc, _⟩ := isDigitChar_not_special c hc
        refine ⟨c, t, ?_, hws, hbr, hbc⟩
        rw [dumps_int, intChars, if_neg hn, hch]
  | jstr s => exact ⟨'"', _, dumps_str s lvl, by decide, by decide, by decide⟩
  | jarr xs =>
      cases xs with
      | nil => exact ⟨'[', _, dumps_arr_nil lvl, by decide, by decide, by decide⟩
      | cons x xs => exact ⟨'[', _, dumps_arr_cons x xs lvl, by decide, by decide, by decide⟩
  | jobj ms =>
      cases ms with
      | nil => exact ⟨'\x7b', _, dumps_obj_nil lvl, by decide, by decide, by decide⟩
      | cons kv ms =>
          exact ⟨'\x7b', _, dumps_obj_cons kv ms lvl, by decide, by decide, by decide⟩

theorem skipWs_dumps (v : JValue) (lvl : Nat) (x : List Char) :
    skipWs (dumps v lvl ++ x) = dumps v lvl ++ x := by
  obtain ⟨c, t, hd, hws, _, _⟩ := dumps_head v lvl
  rw [hd, List.cons_append, skipWs_cons_not _ _ hws]

theorem dumps_length_pos (v : JValue) (lvl : Nat) : 1 ≤ (dumps v lvl).length := by
  obtain ⟨c, t, hd, _, _, _⟩ := dumps_head v lvl
  rw [hd]
  simp

/-! ### JSON: parser step lemmas -/

theorem delimOk_ws_append (ws : List Char) (hw : wsOnly ws = true) (c : Char)
    (t : List Char) (hc : isDigitChar c = false) : delimOk (ws ++ c :: t) = true := by
  cases ws with
  | nil => simp [delimOk, hc]
  | cons w ws2 =>
      have hw1 : isWsChar w = true := by
        simp only [wsOnly, List.all_cons, Bool.and_eq_true] at hw
        exact hw.1
      have hwd : isDigitChar w = false := by
        simp only [isWsChar, Bool.or_eq_true, decide_eq_true_eq] at hw1
        rw [Bool.eq_false_iff]
        intro hd
        simp only [isDigitChar, Bool.and_eq_true, decide_eq_true_eq] at hd
        rcases hw1 with ((h | h) | h) | h <;> omega
      simp [delimOk, hwd]

theorem parseVal_skip_congr (f : Nat) (cs1 cs2 : List Char)
    (h : skipWs cs1 = skipWs cs2) : parseVal (f + 1) cs1 = parseVal (f + 1) cs2 := by
  simp only [parseVal]
  rw [h]

theorem parseVal_ws (f : Nat) (ws l : List Char) (h : wsOnly ws = true) :
    parseVal f (ws ++ l) = parseVal f l := by
  cases f with
  | zero => rfl
  | succ f => exact parseVal_skip_congr f _ _ (skipWs_ws_append ws l h)

theorem parseItems_ws (f : Nat) (ws l : List Char) (h : wsOnly ws = true) :
    parseItems f (ws ++ l) = parseItems f l := by
  cases f with
  | zero => rfl
  | succ f =>
      simp only [parseItems]
      rw [parseVal_ws f ws l h]

theorem parsePairs_ws (f : Nat) (ws l : List Char) (h : wsOnly ws = true) :
    parsePairs f (ws ++ l) = parsePairs f l := by
  cases f with
  | zero => rfl
  | succ f =>
      simp only [parsePairs]
      rw [skipWs_ws_append ws l h]

theorem parseVal_str_step (f : Nat) (R : List Char) :
    parseVal (f + 1) ('"' :: R)
      = match parseStrBody (R.length + 1) R with
        | some (s, rest) => some (.jstr s, rest)
        | none => none := rfl

theorem parseVal_arr_step (f : Nat) (R : List Char) :
    parseVal (f + 1) ('[' :: R)
      = match skipWs R with
        | [] => none
        | c :: r2 =>
            if c = ']' then some (.jarr [], r2)
            else
              match parseItems f (c :: r2) with
              | some (vs, rest) => some (.jarr vs, rest)
              | none => none := rfl

theorem parseVal_obj_step (f : Nat) (R : List Char) :
    parseVal (f + 1) ('\x7b' :: R)
      = match skipWs R with
        | [] => none
        | c :: r2 =>
            if c = '\x7d' then some (.jobj [], r2)
            else
              match parsePairs f (c :: r2) with
              | some (ms, rest) => some (.jobj ms, rest)
              | none => none := rfl

theorem parseItems_succ (f : Nat) (cs : List Char) :
    parseItems (f + 1) cs
      = match parseVal f cs with
        | none => none
        | some (v, r) =>
            match skipWs r with
            | ',' :: r2 =>
                (match parseItems f r2 with
                 | some (vs, rest) => some (v :: vs, rest)
                 | none => none)
            | ']' :: r2 => some ([v], r2)
            | _ => none := rfl

theorem parsePairs_key_step (f : Nat) (R : List Char) :
    parsePairs (f + 1) ('"' :: R)
      = match parseStrBody (R.length + 1) R with
        | none => none
        | some (k, r1) =>
            match skipWs r1 with
            | ':' :: r2 =>
                (match parseVal f r2 with
                 | none => none
                 | some (v, r3) =>
                     match skipWs r3 with
                     | ',' :: r4 =>
                         (match parsePairs f r4 with
                          | some (ms, rest) => some ((k, v) :: ms, rest)
                          | none => none)
                     | '\x7d' :: r4 => some ([(k, v)], r4)
                     | _ => none)
            | _ => none := rfl

theorem parseVal_num_head (f : Nat) (c : Char) (t : List Char)
    (hws : isWsChar c = false)
    (hn : c ≠ 'n') (ht : c ≠ 't') (hf2 : c ≠ 'f') (hq : c ≠ '"')
    (hbk : c ≠ '[') (hbc : c ≠ '\x7b') (hg : c = '-' ∨ isDigitChar c = true) :
    parseVal (f + 1) (c :: t)
      = match parseInt (c :: t) with
        | some (n, rest) => some (.jint n, rest)
        | none => none := by
  have hgb : (decide (c = '-') || isDigitChar c) = true := by
    rcases hg with h | h
    · simp [h]
    · simp [h]
  simp only [parseVal]
  rw [skipWs_cons_not c t hws]
  simp [hn, ht, hf2, hq, hbk, hbc, hgb]

/-! ### JSON: the codec round-trip -/

theorem parseVal_arr_bridge (x : JValue) (f lvl : Nat) (tail : List Char) :
    parseVal (f + 1) ('[' :: '\n' :: (ind (lvl + 2) ++ (dumps x (lvl + 2) ++ tail)))
      = match parseItems f (dumps x (lvl + 2) ++ tail) with
        | some (vs, rest) => some (.jarr vs, rest)
        | none => none := by
  obtain ⟨c0, t0, hd, hws, hbr, _⟩ := dumps_head x (lvl + 2)
  rw [parseVal_arr_step]
  have hskip : skipWs ('\n' :: (ind (lvl + 2) ++ (dumps x (lvl + 2) ++ tail)))
      = c0 :: (t0 ++ tail) := by
    rw [show ('\n' :: (ind (lvl + 2) ++ (dumps x (lvl + 2) ++ tail)) : List Char)
        = ('\n' :: ind (lvl + 2)) ++ (dumps x (lvl + 2) ++ tail) from rfl]
    rw [skipWs_ws_append _ _ (wsOnly_newline_ind _), hd, List.cons_append,
      skipWs_cons_not _ _ hws]
  rw [hskip, hd, List.cons_append]
  show (if c0 = ']' then some (JValue.jarr [], t0 ++ tail)
        else match parseItems f (c0 :: (t0 ++ tail)) with
             | some (vs, rest) => some (.jarr vs, rest)
             | none => none) = _
  rw [if_neg hbr]

theorem parseVal_obj_bridge (k : List Char) (v : JValue) (f lvl : Nat) (tail : List Char) :
    parseVal (f + 1)
        ('\x7b' :: '\n' :: (ind (lvl + 2) ++ (dumpsMember (k, v) (lvl + 2) ++ tail)))
      = match parsePairs f (dumpsMember (k, v) (lvl + 2) ++ tail) with
        | some (ms, rest) => some (.jobj ms, rest)
        | none => none := by
  rw [parseVal_obj_step]
  have hskip : skipWs ('\n' :: (ind (lvl + 2) ++ (dumpsMember (k, v) (lvl + 2) ++ tail)))
      = '"' :: ((escapeStr k ++ ('"' :: ':' :: ' ' :: dumps v (lvl + 2))) ++ tail) := by
    rw [show ('\n' :: (ind (lvl + 2) ++ (dumpsMember (k, v) (lvl + 2) ++ tail)) : List Char)
        = ('\n' :: ind (lvl + 2)) ++ (dumpsMember (k, v) (lvl + 2) ++ tail) from rfl]
    rw [skipWs_ws_append _ _ (wsOnly_newline_ind _), dumpsMember_eq, List.cons_append,
      skipWs_cons_not _ _ (by decide)]
  rw [hskip, dumpsMember_eq, List.cons_append]
  show (if ('"' : Char) = '\x7d'
        then some (JValue.jobj [], (escapeStr k ++ ('"' :: ':' :: ' ' :: dumps v (lvl + 2))) ++ tail)
        else match parsePairs f
              ('"' :: ((escapeStr k ++ ('"' :: ':' :: ' ' :: dumps v (lvl + 2))) ++ tail)) with
             | some (ms, rest) => some (.jobj ms, rest)
             | none => none) = _
  rw [if_neg (by decide)]

mutual

theorem rt_val : ∀ (v : JValue) (lvl fuel : Nat) (rest : List Char),
    (dumps v lvl).length < fuel → delimOk rest = true →
    parseVal fuel (dumps v lvl ++ rest) = some (v, rest)
  | .jnull, lvl, fuel, rest, hf, _ => by
      obtain ⟨f, rfl⟩ : ∃ f, fuel = f + 1 := ⟨fuel - 1, by omega⟩
      rw [dumps_null]
      rfl
  | .jbool true, lvl, fuel, rest, hf, _ => by
      obtain ⟨f, rfl⟩ : ∃ f, fuel = f + 1 := ⟨fuel - 1, by omega⟩
      rw [dumps_true]
      rfl
  | .jbool false, lvl, fuel, rest, hf, _ => by
      obtain ⟨f, rfl⟩ : ∃ f, fuel = f + 1 := ⟨fuel - 1, by omega⟩
      rw [dumps_false]
      rfl
  | .jint n, lvl, fuel, rest, hf, hr => by
      obtain ⟨f, rfl⟩ : ∃ f, fuel = f + 1 := ⟨fuel - 1, by omega⟩
      rw [dumps_int]
      by_cases hn : n < 0
      · have harg : intChars n ++ rest = '-' :: (natChars n.natAbs ++ rest) := by
          rw [intChars, if_pos hn, List.cons_append]
        rw [harg, parseVal_num_head f '-' _ (by decide) (by decide) (by decide) (by decide)
          (by decide) (by decide) (by decide) (Or.inl rfl), ← harg,
          parseInt_round n rest hr]
      · obtain ⟨c, t, hch, hc⟩ := natChars_cons n.natAbs
        obtain ⟨hws, _, _, hltn, hltt, hltf, hltq, hltbk, hltbc⟩ :=
          isDigitChar_not_special c hc
        have harg : intChars n ++ rest = c :: (t ++ rest) := by
          rw [intChars, if_neg hn, hch, List.cons_append]
        rw [harg, parseVal_num_head f c _ hws hltn hltt hltf hltq hltbk hltbc (Or.inr hc),
          ← harg, parseInt_round n rest hr]
  | .jstr s, lvl, fuel, rest, hf, _ => by
      obtain ⟨f, rfl⟩ : ∃ f, fuel = f + 1 := ⟨fuel - 1, by omega⟩
      rw [dumps_str]
      have harg : ('"' :: (escapeStr s ++ ['"'])) ++ rest
          = '"' :: (escapeStr s ++ '"' :: rest) := by
        simp
      rw [harg, parseVal_str_step,
        parseStrBody_round s _ rest (by simp [List.length_append]; omega)]
  | .jarr [], lvl, fuel, rest, hf, _ => by
      obtain ⟨f, rfl⟩ : ∃ f, fuel = f + 1 := ⟨fuel - 1, by omega⟩
      rw [dumps_arr_nil]
      rfl
  | .jarr (x :: xs), lvl, fuel, rest, hf, _ => by
      obtain ⟨f, rfl⟩ : ∃ f, fuel = f + 1 := ⟨fuel - 1, by omega⟩
      rw [dumps_arr_cons] at hf ⊢
      have harg : ('[' :: '\n' :: (ind (lvl + 2) ++ (dumps x (lvl + 2)
            ++ (dumpsArrTail xs (lvl + 2) ++ ('\n' :: (ind lvl ++ [']'])))))) ++ rest
          = '[' :: '\n' :: (ind (lvl + 2) ++ (dumps x (lvl + 2)
            ++ (dumpsArrTail xs (lvl + 2) ++ ('\n' :: (ind lvl ++ (']' :: rest)))))) := by
        simp
      have hfx : (dumps x (lvl + 2)).length + (dumpsArrTail xs (lvl + 2)).length + 1 < f := by
        simp only [List.length_cons, List.length_append, ind, List.length_replicate] at hf
        omega
      have key := rt_items x xs (lvl + 2) f ('\n' :: ind lvl) rest
        (wsOnly_newline_ind lvl) hfx
      rw [show (('\n' :: ind lvl) ++ (']' :: rest) : List Char)
          = '\n' :: (ind lvl ++ (']' :: rest)) from rfl] at key
      rw [harg, parseVal_arr_bridge x f lvl _, key]
  | .jobj [], lvl, fuel, rest, hf, _ => by
      obtain ⟨f, rfl⟩ : ∃ f, fuel = f + 1 := ⟨fuel - 1, by omega⟩
      rw [dumps_obj_nil]
      rfl
  | .jobj ((k, v) :: kvs), lvl, fuel, rest, hf, _ => by
      obtain ⟨f, rfl⟩ : ∃ f, fuel = f + 1 := ⟨fuel - 1, by omega⟩
      rw [dumps_obj_cons] at hf ⊢
      have harg : ('\x7b' :: '\n' :: (ind (lvl + 2) ++ (dumpsMember (k, v) (lvl + 2)
            ++ (dumpsObjTail kvs (lvl + 2) ++ ('\n' :: (ind lvl ++ ['\x7d'])))))) ++ rest
          = '\x7b' :: '\n' :: (ind (lvl + 2) ++ (dumpsMember (k, v) (lvl + 2)
            ++ (dumpsObjTail kvs (lvl + 2) ++ ('\n' :: (ind lvl ++ ('\x7d' :: rest)))))) := by
        simp
      have hfx : (dumpsMember (k, v) (lvl + 2)).length
          + (dumpsObjTail kvs (lvl + 2)).length + 1 < f := by
        simp only [List.length_cons, List.length_append, ind, List.length_replicate] at hf
        omega
      have key := rt_pairs (k, v) kvs (lvl + 2) f ('\n' :: ind lvl) rest
        (wsOnly_newline_ind lvl) hfx
      rw [show (('\n' :: ind lvl) ++ ('\x7d' :: rest) : List Char)
          = '\n' :: (ind lvl ++ ('\x7d' :: rest)) from rfl] at key
      rw [harg, parseVal_obj_bridge k v f lvl _, key]
  termination_by v _ _ _ _ _ => sizeOf v

theorem rt_items : ∀ (x : JValue) (xs : List JValue) (lvl fuel : Nat) (ws rest : List Char),
    wsOnly ws = true →
    (dumps x lvl).length + (dumpsArrTail xs lvl).length + 1 < fuel →
    parseItems fuel (dumps x lvl ++ (dumpsArrTail xs lvl ++ (ws ++ ']' :: rest)))
      = some (x :: xs, rest)
  | x, [], lvl, fuel, ws, rest, hw, hf => by
      obtain ⟨f, rfl⟩ : ∃ f, fuel = f + 1 := ⟨fuel - 1, by omega⟩
      rw [dumpsArrTail_nil] at hf ⊢
      rw [List.nil_append, parseItems_succ]
      have hv := rt_val x lvl f (ws ++ ']' :: rest)
        (by simp only [dumpsArrTail_nil, List.length_nil] at hf; omega)
        (delimOk_ws_append ws hw ']' rest (by decide))
      have hskip : skipWs (ws ++ ']' :: rest) = ']' :: rest := by
        rw [skipWs_ws_append ws _ hw, skipWs_cons_not _ _ (by decide)]
      simp only [hv, hskip]
  | x, y :: ys, lvl, fuel, ws, rest, hw, hf => by
      obtain ⟨f, rfl⟩ : ∃ f, fuel = f + 1 := ⟨fuel - 1, by omega⟩
      rw [dumpsArrTail_cons] at hf ⊢
      have harg : dumps x lvl ++ ((',' :: '\n' :: (ind lvl ++ (dumps y lvl
            ++ dumpsArrTail ys lvl))) ++ (ws ++ ']' :: rest))
          = dumps x lvl ++ (',' :: '\n' :: (ind lvl ++ (dumps y lvl
            ++ (dumpsArrTail ys lvl ++ (ws ++ ']' :: rest))))) := by
        simp
      have hlen : (dumps x lvl).length < f := by
        simp only [List.length_cons, List.length_append, ind, List.length_replicate] at hf
        omega
      have hv := rt_val x lvl f (',' :: '\n' :: (ind lvl ++ (dumps y lvl
        ++ (dumpsArrTail ys lvl ++ (ws ++ ']' :: rest))))) hlen rfl
      have hrec := rt_items y ys lvl f ws rest hw (by
        simp only [List.length_cons, List.length_append, ind, List.length_replicate] at hf
        have := dumps_length_pos x lvl
        omega)
      have hstep : parseItems f ('\n' :: (ind lvl ++ (dumps y lvl
          ++ (dumpsArrTail ys lvl ++ (ws ++ ']' :: rest))))) = some (y :: ys, rest) := by
        rw [show ('\n' :: (ind lvl ++ (dumps y lvl
              ++ (dumpsArrTail ys lvl ++ (ws ++ ']' :: rest)))) : List Char)
            = ('\n' :: ind lvl) ++ (dumps y lvl
              ++ (dumpsArrTail ys lvl ++ (ws ++ ']' :: rest))) from rfl]
        rw [parseItems_ws f _ _ (wsOnly_newline_ind lvl)]
        exact hrec
      rw [harg, parseItems_succ]
      simp only [hv, skipWs_cons_not ',' _ (by decide), hstep]
  termination_by x xs _ _ _ _ _ _ => sizeOf x + sizeOf xs

theorem rt_pairs : ∀ (kv : List Char × JValue) (kvs : List (List Char × JValue))
    (lvl fuel : Nat) (ws rest : List Char),
    wsOnly ws = true →
    (dumpsMember kv lvl).length + (dumpsObjTail kvs lvl).length + 1 < fuel →
    parsePairs fuel (dumpsMember kv lvl ++ (dumpsObjTail kvs lvl ++ (ws ++ '\x7d' :: rest)))
      = some (kv :: kvs, rest)
  | (k, v), [], lvl, fuel, ws, rest, hw, hf => by
      obtain ⟨f, rfl⟩ : ∃ f, fuel = f + 1 := ⟨fuel - 1, by omega⟩
      rw [dumpsObjTail_nil] at hf ⊢
      rw [dumpsMember_eq] at hf ⊢
      have harg : ('"' :: (escapeStr k ++ ('"' :: ':' :: ' ' :: dumps v lvl)))
            ++ ([] ++ (ws ++ '\x7d' :: rest))
          = '"' :: (escapeStr k ++ ('"' :: ':' :: ' '
            :: (dumps v lvl ++ (ws ++ '\x7d' :: rest)))) := by
        simp
      rw [harg, parsePairs_key_step]
      have hstr := parseStrBody_round k
        ((escapeStr k ++ ('"' :: ':' :: ' ' :: (dumps v lvl ++ (ws ++ '\x7d' :: rest)))).length + 1)
        (':' :: ' ' :: (dumps v lvl ++ (ws ++ '\x7d' :: rest)))
        (by simp [List.length_append]; omega)
      have hv : parseVal f (' ' :: (dumps v lvl ++ (ws ++ '\x7d' :: rest)))
          = some (v, ws ++ '\x7d' :: rest) := by
        rw [show (' ' :: (dumps v lvl ++ (ws ++ '\x7d' :: rest)) : List Char)
            = ([' '] : List Char) ++ (dumps v lvl ++ (ws ++ '\x7d' :: rest)) from rfl,
          parseVal_ws f _ _ (by decide)]
        refine rt_val v lvl f _ ?_ (delimOk_ws_append ws hw _ rest (by decide))
        simp only [List.length_cons, List.length_append, List.length_nil] at hf
        omega
      have hskip2 : skipWs (ws ++ '\x7d' :: rest) = '\x7d' :: rest := by
        rw [skipWs_ws_append ws _ hw, skipWs_cons_not _ _ (by decide)]
      simp only [hstr, skipWs_cons_not ':' _ (by decide), hv, hskip2]
  | (k, v), kv2 :: ms, lvl, fuel, ws, rest, hw, hf => by
      obtain ⟨f, rfl⟩ : ∃ f, fuel = f + 1 := ⟨fuel - 1, by omega⟩
      rw [dumpsObjTail_cons] at hf ⊢
      rw [dumpsMember_eq] at hf ⊢
      have harg : ('"' :: (escapeStr k ++ ('"' :: ':' :: ' ' :: dumps v lvl)))
            ++ ((',' :: '\n' :: (ind lvl ++ (dumpsMember kv2 lvl ++ dumpsObjTail ms lvl)))
              ++ (ws ++ '\x7d' :: rest))
          = '"' :: (escapeStr k ++ ('"' :: ':' :: ' '
            :: (dumps v lvl ++ (',' :: '\n' :: (ind lvl ++ (dumpsMember kv2 lvl
              ++ (dumpsObjTail ms lvl ++ (ws ++ '\x7d' :: rest)))))))) := by
        simp
      rw [harg, parsePairs_key_step]
      have hstr := parseStrBody_round k
        ((escapeStr k ++ ('"' :: ':' :: ' ' :: (dumps v lvl ++ (',' :: '\n'
          :: (ind lvl ++ (dumpsMember kv2 lvl ++ (dumpsObjTail ms lvl
            ++ (ws ++ '\x7d' :: rest)))))))).length + 1)
        (':' :: ' ' :: (dumps v lvl ++ (',' :: '\n' :: (ind lvl ++ (dumpsMember kv2 lvl
          ++ (dumpsObjTail ms lvl ++ (ws ++ '\x7d' :: rest)))))))
        (by simp [List.length_append]; omega)
      have hv : parseVal f (' ' :: (dumps v lvl ++ (',' :: '\n' :: (ind lvl
            ++ (dumpsMember kv2 lvl ++ (dumpsObjTail ms lvl ++ (ws ++ '\x7d' :: rest)))))))
          = some (v, ',' :: '\n' :: (ind lvl ++ (dumpsMember kv2 lvl
            ++ (dumpsObjTail ms lvl ++ (ws ++ '\x7d' :: rest))))) := by
        rw [show (' ' :: (dumps v lvl ++ (',' :: '\n' :: (ind lvl
              ++ (dumpsMember kv2 lvl ++ (dumpsObjTail ms lvl
                ++ (ws ++ '\x7d' :: rest)))))) : List Char)
            = ([' '] : List Char) ++ (dumps v lvl ++ (',' :: '\n' :: (ind lvl
              ++ (dumpsMember kv2 lvl ++ (dumpsObjTail ms lvl
                ++ (ws ++ '\x7d' :: rest)))))) from rfl,
          parseVal_ws f _ _ (by decide)]
        refine rt_val v lvl f _ ?_ rfl
        simp only [List.length_cons, List.length_append, ind, List.length_replicate] at hf
        omega
      have hrec := rt_pairs kv2 ms lvl f ws rest hw (by
        simp only [List.length_cons, List.length_append, ind, List.length_replicate] at hf
        omega)
      have hstep : parsePairs f ('\n' :: (ind lvl ++ (dumpsMember kv2 lvl
          ++ (dumpsObjTail ms lvl ++ (ws ++ '\x7d' :: rest))))) = some (kv2 :: ms, rest) := by
        rw [show ('\n' :: (ind lvl ++ (dumpsMember kv2 lvl
              ++ (dumpsObjTail ms lvl ++ (ws ++ '\x7d' :: rest)))) : List Char)
            = ('\n' :: ind lvl) ++ (dumpsMember kv2 lvl
              ++ (dumpsObjTail ms lvl ++ (ws ++ '\x7d' :: rest))) from rfl]
        rw [parsePairs_ws f _ _ (wsOnly_newline_ind lvl)]
        exact hrec
      simp only [hstr, skipWs_cons_not ':' _ (by decide), hv,
        skipWs_cons_not ',' _ (by decide), hstep]
  termination_by kv kvs _ _ _ _ _ _ => sizeOf kv + sizeOf kvs

end

/-- Parsing a dumped document recovers the value exactly. -/
theorem parseJson_dumps (v : JValue) : parseJson (dumps v 0) = some v := by
  have hv := rt_val v 0 ((dumps v 0).length + 1) [] (by omega) rfl
  rw [List.append_nil] at hv
  rw [parseJson, hv]
  rfl

/-- Claim C8: for every record sequence and every path on which `save_to_json`
succeeds, parsing the written document as JSON yields a structure deep-equal to
the records (their canonical JSON form), and `ensure_ascii=False` emits every
printable character — non-ASCII included — literally. -/
theorem c8_save_roundtrip (records : List QA) (path : String) (w : List Char)
    (h : save_to_json records path = .ok w) :
    parseJson w = some (recordsToJson records) ∧
    ∀ c : Char, 32 ≤ c.toNat → c ≠ '"' → c ≠ '\\' → escapeChar c = [c] := by
  constructor
  · have hw : w = dumps (recordsToJson records) 0 := by
      rw [save_to_json] at h
      by_cases hd : (dirname path.data).isEmpty = true
      · rw [if_pos hd] at h
        exact SaveOutcome.noConfusion h
      · rw [if_neg hd] at h
        injection h with h2
        exact h2.symm
    rw [hw]
    exact parseJson_dumps _
  · intro c h32 hq hbs
    have h3 : c ≠ '\n' := by intro hc; subst hc; exact absurd h32 (by decide)
    have h4 : c ≠ '\r' := by intro hc; subst hc; exact absurd h32 (by decide)
    have h5 : c ≠ '\t' := by intro hc; subst hc; exact absurd h32 (by decide)
    have h6 : c ≠ '\x08' := by intro hc; subst hc; exact absurd h32 (by decide)
    have h7 : c ≠ '\x0c' := by intro hc; subst hc; exact absurd h32 (by decide)
    rw [escapeChar, if_neg hq, if_neg hbs, if_neg h3, if_neg h4, if_neg h5, if_neg h6,
      if_neg h7, if_neg (by omega)]

/-- Witness for C8 at a concrete one-record save, with a non-ASCII character. -/
theorem c8_save_roundtrip_witness :
    parseJson (dumps (recordsToJson [⟨qWith 1, [a0]⟩]) 0)
        = some (recordsToJson [⟨qWith 1, [a0]⟩]) ∧
    escapeChar '中' = ['中'] :=
  ⟨(c8_save_roundtrip [⟨qWith 1, [a0]⟩] "data/x.json"
      (dumps (recordsToJson [⟨qWith 1, [a0]⟩]) 0) rfl).1,
   (c8_save_roundtrip [⟨qWith 1, [a0]⟩] "data/x.json"
      (dumps (recordsToJson [⟨qWith 1, [a0]⟩]) 0) rfl).2 '中'
     (by decide) (by decide) (by decide)⟩

/-! ### The dirname computation -/

theorem no_slash_rfind (p : List Char) (h : '/' ∉ p) : rfindSlashSucc p = 0 := by
  induction p with
  | nil => rfl
  | cons c t ih =>
      have hc : c ≠ '/' := by
        intro hc
        subst hc
        exact h (List.mem_cons_self ..)
      have ht : '/' ∉ t := fun hm => h (List.mem_cons_of_mem _ hm)
      simp only [rfindSlashSucc, ih ht]
      simp [hc]

theorem dirname_no_slash (p : List Char) (h : '/' ∉ p) : dirname p = [] := by
  simp only [dirname, no_slash_rfind p h, List.take_zero]
  rfl

/-- Claim C10 (implicit): on a path with no directory separator,
`os.path.dirname` is empty and the `os.makedirs` call raises before anything is
written, so `save_to_json` succeeds only for paths containing `'/'`. -/
theorem c10_save_requires_dir (data : List QA) (path : String) :
    ('/' ∉ path.data → save_to_json data path = .fileNotFoundError) ∧
    (∀ w : List Char, save_to_json data path = .ok w → '/' ∈ path.data) := by
  have h1 : '/' ∉ path.data → save_to_json data path = .fileNotFoundError := by
    intro h
    rw [save_to_json, dirname_no_slash _ h]
    rfl
  refine ⟨h1, ?_⟩
  intro w hw
  by_cases h : '/' ∈ path.data
  · exact h
  · rw [h1 h] at hw
    exact SaveOutcome.noConfusion hw

/-- Witness for C10 at the bare filename `out.json`. -/
theorem c10_save_requires_dir_witness :
    save_to_json [] "out.json" = SaveOutcome.fileNotFoundError :=
  (c10_save_requires_dir [] "out.json").1 (by decide)

/-- Witness for C7 at a one-question mock run. -/
theorem c7_checkpoints_are_prefixes_witness :
    ((collect_questions_with_answers mockC 1 0 rng0).2.1.getD 0 default).data
        = (collect_questions_with_answers mockC 1 0 rng0).1.take
            ((collect_questions_with_answers mockC 1 0 rng0).2.1.getD 0 default).count ∧
    ((collect_questions_with_answers mockC 1 0 rng0).2.1.getD 0 default).data.length
        = ((collect_questions_with_answers mockC 1 0 rng0).2.1.getD 0 default).count ∧
    ((collect_questions_with_answers mockC 1 0 rng0).2.1.getD 0 default).path
        = checkpointPath
            ((collect_questions_with_answers mockC 1 0 rng0).2.1.getD 0 default).count :=
  c7_checkpoints_are_prefixes mockC 1 0 rng0 _ (getD_mem _ 0 _ (by decide))

end SE
